import Mathlib

/-!
Verification of the streaming column-profiling and drift-detection engine
of the `bitnet_tools` repository.

The Python modules `analysis.py`, `multi_csv.py`, `compare.py`,
`versioning.py` and `explain.py` are shallowly embedded below.
Python `float` arithmetic is modelled as exact arithmetic over `ℚ`
(and over `ℝ` where `math.log` is involved); machine floats are not
modelled bit-for-bit, which is only relevant within stated floating
tolerances.  Python dictionaries are modelled as association lists in
insertion order, `csv.DictReader` output as a list of association-list
rows, and stable Python sorts (`sorted`, `Counter.most_common` via
`heapq.nlargest`) as `List.insertionSort`, which is stable in the same
sense.
-/

attribute [local semireducible] Rat.add Rat.mul Rat.sub Rat.inv

/-- Whitespace test matching Python `str.strip` for the ASCII whitespace
characters (Unicode-only whitespace is not modelled). -/
def isPySpace (c : Char) : Bool :=
  c == ' ' || c == '\t' || c == '\n' || c == '\r' || c == '\x0b' || c == '\x0c'

/-- Strip leading and trailing whitespace from a character list. -/
def pyStripChars (l : List Char) : List Char :=
  ((l.dropWhile isPySpace).reverse.dropWhile isPySpace).reverse

/-- Model of Python `str.strip()`. -/
def pyStrip (s : String) : String := String.mk (pyStripChars s.data)

/-- Model of Python `str.rstrip()`. -/
def pyRstrip (s : String) : String := String.mk (s.data.reverse.dropWhile isPySpace).reverse

/-- Scan a run of decimal digits, returning accumulated value, number of
digits consumed, and the rest of the input. -/
def scanDigits : List Char → ℕ → ℕ → ℕ × ℕ × List Char
  | c :: rest, acc, cnt =>
    if c.isDigit then scanDigits rest (10 * acc + (c.toNat - 48)) (cnt + 1)
    else (acc, cnt, c :: rest)
  | [], acc, cnt => (acc, cnt, [])

/-- Parse an optional leading sign. -/
def parseSign : List Char → ℤ × List Char
  | '+' :: rest => (1, rest)
  | '-' :: rest => (-1, rest)
  | l => (1, l)

/-- Model of the Python builtin `float(s)` for finite decimal literals
(optionally signed, optional fractional part, optional exponent), with the
value represented exactly in `ℚ`.  `inf`/`nan` literals, digit
underscores and non-ASCII digits are not modelled and parse as failures. -/
def pyFloat? (s : String) : Option ℚ :=
  let t := pyStripChars s.data
  let (sign, cs) := parseSign t
  let (ip, ic, r1) := scanDigits cs 0 0
  let hasDot : Bool := match r1 with
    | '.' :: _ => true
    | _ => false
  let (fp, fc, r2) :=
    match r1 with
    | '.' :: r => scanDigits r 0 0
    | _ => (0, 0, r1)
  if ic + fc == 0 then none
  else
    let mant : ℚ := (sign : ℚ) * ((ip : ℚ) + (fp : ℚ) / (10 : ℚ) ^ fc)
    let _ := hasDot
    match r2 with
    | [] => some mant
    | 'e' :: r3 =>
      let (esign, cs2) := parseSign r3
      let (ev, ec, r4) := scanDigits cs2 0 0
      if ec == 0 then none
      else match r4 with
        | [] => some (mant * (10 : ℚ) ^ (esign * (ev : ℤ)))
        | _ => none
    | 'E' :: r3 =>
      let (esign, cs2) := parseSign r3
      let (ev, ec, r4) := scanDigits cs2 0 0
      if ec == 0 then none
      else match r4 with
        | [] => some (mant * (10 : ℚ) ^ (esign * (ev : ℤ)))
        | _ => none
    | _ => none

/-- Characters removed by `analysis._to_float` before parsing
(thousands separator, currency symbols and percent). -/
def currencyChars : List Char := [',', '₩', '$', '€', '£', '%']

/-- Model of `analysis._to_float`: strip, recognize the parenthesized
negative form, remove separator and currency characters, parse as float;
any parse failure yields `none` (the function is total, so the "never
raises" behaviour of the source is inherent to the embedding). -/
def toFloat? (value : String) : Option ℚ :=
  let v := pyStrip value
  if v == "" then none
  else
    let negParen := v.data.head? == some '(' && v.data.getLast? == some ')'
    let v1 := if negParen then pyStrip (String.mk ((v.data.drop 1).dropLast)) else v
    let v2 := pyStrip (String.mk (v1.data.filter (fun c => !currencyChars.contains c)))
    if v2 == "" then none
    else match pyFloat? v2 with
      | none => none
      | some q => some (if negParen then -q else q)

/-! ## multi_csv.py : the streaming column profiler

The per-column accumulators of `_profile_csv_stream` update
independently of each other inside the single row loop, so the loop is
embedded one accumulator at a time as folds/counts over the stream of
raw cell values of one column. -/

def UNIQUE_BITMAP_SIZE : ℕ := 65536

def TOP_VALUE_TRACK_CAP : ℕ := 5000

/-- Model of one `csv.DictReader` row: an association list from column
name to cell text in field order (a Python dict in insertion order). -/
abbrev CsvRow := List (String × String)

/-- Model of `row.get(col) or ''`: the last binding of a key wins as in
a Python dict; a missing key yields the empty string. -/
def rowGet (row : CsvRow) (col : String) : String :=
  (row.reverse.lookup col).getD ""

/-- Stream of raw cell values of one column across the rows of a file. -/
def columnCells (rows : List CsvRow) (col : String) : List String :=
  rows.map (fun r => rowGet r col)

/-- Cells counted as missing by the profiling loop: stripped text empty. -/
def missingCount (cells : List String) : ℕ :=
  cells.countP (fun v => pyStrip v == "")

/-- Cells counted as non-missing by the profiling loop. -/
def nonMissingCount (cells : List String) : ℕ :=
  cells.countP (fun v => pyStrip v != "")

/-- The stripped non-missing values in stream order: exactly the `raw`
values handed to the per-column accumulators. -/
def strippedValues (cells : List String) : List String :=
  (cells.map pyStrip).filter (fun v => v != "")

/-- Increment the count of an existing key of the counter in place. -/
def bumpKey : List (String × ℕ) → String → List (String × ℕ)
  | [], _ => []
  | (k, n) :: rest, v => if k == v then (k, n + 1) :: rest else (k, n) :: bumpKey rest v

/-- Model of `_update_bounded_counter`: increment a tracked value,
start tracking a new value while under the cap, otherwise increment the
overflow count.  The state is (counter as insertion-ordered association
list, overflow count). -/
def updateBoundedCounter (st : List (String × ℕ) × ℕ) (v : String) : List (String × ℕ) × ℕ :=
  if (st.1.lookup v).isSome then (bumpKey st.1 v, st.2)
  else if st.1.length < TOP_VALUE_TRACK_CAP then (st.1 ++ [(v, 1)], st.2)
  else (st.1, st.2 + 1)

/-- Bounded-counter fold over a value stream. -/
def counterFold (vals : List String) (st : List (String × ℕ) × ℕ) : List (String × ℕ) × ℕ :=
  vals.foldl updateBoundedCounter st

/-- Final counter state of one column (counter starts empty). -/
def counterStateOf (vals : List String) : List (String × ℕ) × ℕ := counterFold vals ([], 0)

/-- Ordering used by `Counter.most_common` (`heapq.nlargest`) and by the
explicit `sorted(..., key=lambda x: x[1], reverse=True)` call:
descending by count.  Both Python operations are stable, which
`List.insertionSort` with this non-strict relation models exactly. -/
def countDescRel (a b : String × ℕ) : Prop := b.2 ≤ a.2

instance : DecidableRel countDescRel := fun a b => Nat.decLe b.2 a.2

instance : IsTotal (String × ℕ) countDescRel := ⟨fun a b => Nat.le_total b.2 a.2⟩

instance : IsTrans (String × ℕ) countDescRel := ⟨fun _ _ _ hab hbc => Nat.le_trans hbc hab⟩

/-- Model of `Counter.most_common(5)`. -/
def mostCommon5 (counter : List (String × ℕ)) : List (String × ℕ) :=
  (counter.insertionSort countDescRel).take 5

/-- The top (value, count) pairs of one column profile: the five most
common entries; when overflow occurred, the synthetic `__OTHER__` entry
is appended, the list re-sorted by count and cut to five again. -/
def topPairsOf (vals : List String) : List (String × ℕ) :=
  if 0 < (counterStateOf vals).2 then
    ((mostCommon5 (counterStateOf vals).1 ++
      [("__OTHER__", (counterStateOf vals).2)]).insertionSort countDescRel).take 5
  else mostCommon5 (counterStateOf vals).1

/-- Python `round` (round-half-to-even) for exact rationals. -/
def qRoundHalfEven (q : ℚ) : ℤ :=
  let n := Rat.floor q
  if q - (n : ℚ) < 1 / 2 then n
  else if 1 / 2 < q - (n : ℚ) then n + 1
  else if n % 2 == 0 then n else n + 1

/-- Python `round(x, 6)` on exact rationals. -/
def pyRound6 (q : ℚ) : ℚ := (qRoundHalfEven (q * 1000000) : ℚ) / 1000000

/-- Python `round(x, 2)` on exact rationals. -/
def pyRound2 (q : ℚ) : ℚ := (qRoundHalfEven (q * 100) : ℚ) / 100

/-- One entry of `top_values` ({'value','count','ratio'} in the source). -/
structure TopValue where
  value : String
  count : ℕ
  frac : ℚ
deriving DecidableEq

/-- The `top_values` entries of one column profile; `frac` carries the
source's rounded count/row_count value. -/
def topValuesOf (cells : List String) : List TopValue :=
  (topPairsOf (strippedValues cells)).map fun p =>
    ⟨p.1, p.2, if cells.length == 0 then 0 else pyRound6 ((p.2 : ℚ) / (cells.length : ℚ))⟩

/-- The `top_values_capped` flag of one column profile. -/
def topValuesCappedOf (cells : List String) : Bool :=
  (counterStateOf (strippedValues cells)).2 != 0

/-- Two-row file whose single column holds "b" then "a". -/
def c8Rows : List CsvRow := [[("c", "b")], [("c", "a")]]

/-- Lexicographic comparison of strings by code point, the order Python
uses to compare strings. -/
def strLtb : List Char → List Char → Bool
  | [], [] => false
  | [], _ :: _ => true
  | _ :: _, [] => false
  | a :: as, b :: bs => if a < b then true else if b < a then false else strLtb as bs

/-! ## explain.py : the reason-candidate rule engine -/

/-- Python builtin `min` for two rationals (first argument on ties). -/
def pyMinQ (a b : ℚ) : ℚ := if b < a then b else a

/-- Python builtin `max` for two rationals (first argument on ties). -/
def pyMaxQ (a b : ℚ) : ℚ := if a < b then b else a

/-- Python builtin `abs` on rationals. -/
def qAbs (q : ℚ) : ℚ := if q < 0 then -q else q

/-- One entry of a `top_values` list as read by explain.py; `frac`
carries the source key 'ratio'. -/
structure TopEntry where
  value : String
  frac : ℚ
deriving DecidableEq

/-- The column-profile fields read by the explain rules.  Field names
follow the source dictionary keys 'missing_ratio', 'dtype',
'semantic_type', 'dominant_value_ratio' and 'top_values'. -/
structure ExplainProfile where
  missingFrac : ℚ
  dtype : String
  semanticType : String
  dominantFrac : ℚ
  topValues : List TopEntry
deriving DecidableEq

/-- A reason candidate; the human-readable reason string and the
evidence mapping of the source are built from rule, score and column
and are not modelled separately. -/
structure ReasonCandidate where
  rule : String
  score : ℚ
  column : String
deriving DecidableEq

/-- Model of `_rule_missing_concentration`: among the columns with
missing ratio at least 0.2 pick the one of maximal ratio (first wins on
ties, as Python `max`), scored by `min(100, ratio*100)` rounded to two
decimals. -/
def ruleMissingConcentration (profiles : List (String × ExplainProfile)) :
    Option ReasonCandidate :=
  let targets := profiles.filter (fun p => decide ((1 : ℚ)/5 ≤ p.2.missingFrac))
  match targets with
  | [] => none
  | t :: ts =>
    let best := ts.foldl (fun b p => if b.2.missingFrac < p.2.missingFrac then p else b) t
    some ⟨"결측 집중", pyRound2 (pyMinQ 100 (best.2.missingFrac * 100)), best.1⟩

/-- Model of `_rule_category_bias`. -/
def ruleCategoryBias (profiles : List (String × ExplainProfile)) : Option ReasonCandidate :=
  let best := profiles.foldl (fun best p =>
    if p.2.dtype != "string" && p.2.semanticType != "category" then best
    else if p.2.dominantFrac < 13/20 then best
    else match best with
      | none => some p
      | some b => if b.2.dominantFrac < p.2.dominantFrac then some p else best) none
  best.map (fun b => ⟨"특정 카테고리 편중", pyRound2 (pyMinQ 100 (b.2.dominantFrac * 100)), b.1⟩)

/-- Characters matched by the unit regex `[A-Za-z가-힣/%]`. -/
def isUnitChar (c : Char) : Bool :=
  c.isAlpha || (0xAC00 ≤ c.toNat && c.toNat ≤ 0xD7A3) || c == '/' || c == '%'

/-- Model of `_extract_unit`: a trailing run of unit characters of
length 1..8 on a text containing a digit, lower-cased.  Python's
Unicode `isdigit` is modelled for ASCII digits. -/
def extractUnit? (value : String) : Option String :=
  let text := pyStrip value
  if text == "" || !(text.data.any Char.isDigit) then none
  else
    let unit := (text.data.reverse.takeWhile isUnitChar).reverse
    if unit.isEmpty then none
    else if 8 < unit.length then none
    else some (String.mk (unit.map Char.toLower))

/-- Accumulate a unit's coverage into the insertion-ordered unit dict. -/
def addUnitTotal : List (String × ℚ) → String → ℚ → List (String × ℚ)
  | [], u, r => [(u, r)]
  | (k, v) :: rest, u, r =>
    if k == u then (k, v + r) :: rest else (k, v) :: addUnitTotal rest u r

/-- Model of `_rule_unit_mismatch`. -/
def ruleUnitMismatch (profiles : List (String × ExplainProfile)) : Option ReasonCandidate :=
  profiles.foldl (fun best p =>
    let units := p.2.topValues.foldl (fun us item =>
      match extractUnit? item.value with
      | none => us
      | some u => addUnitTotal us u item.frac) []
    if units.length < 2 then best
    else
      let coverage := (units.map (fun u => u.2)).sum
      if coverage < 1/5 then best
      else
        let score := pyRound2 (pyMinQ 100 (((units.length : ℚ) - 1) * 18 + coverage * 50))
        match best with
        | none => some ⟨"단위 불일치", score, p.1⟩
        | some b => if b.score < score then some ⟨"단위 불일치", score, p.1⟩ else best) none

/-- Parsed `datetime` value. -/
structure PyDateTime where
  year : ℕ
  month : ℕ
  day : ℕ
  hour : ℕ
  minute : ℕ
  second : ℕ
deriving DecidableEq

def isLeapYear (y : ℕ) : Bool := (y % 4 == 0 && y % 100 != 0) || y % 400 == 0

def daysInMonth (y m : ℕ) : ℕ :=
  if m == 2 then (if isLeapYear y then 29 else 28)
  else if m == 4 || m == 6 || m == 9 || m == 11 then 30
  else 31

/-- Structural split of a character list on a separator character
(matching Python `str.split(sep)` for a one-character separator). -/
def splitOnChar (sep : Char) : List Char → List (List Char)
  | [] => [[]]
  | c :: rest =>
    if c == sep then [] :: splitOnChar sep rest
    else match splitOnChar sep rest with
      | [] => [[c]]
      | g :: gs => (c :: g) :: gs

/-- String split on a one-character separator: a kernel-reducible model
of `String.splitOn` for the single-character separators the source
uses. -/
def strSplit (s : String) (sep : Char) : List String :=
  (splitOnChar sep s.data).map String.mk

/-- Parse a strptime numeric field: 1 to `maxW` ASCII digits. -/
def parseIntField (s : String) (maxW : ℕ) : Option ℕ :=
  let cs := s.data
  if cs.isEmpty || maxW < cs.length || !(cs.all Char.isDigit) then none
  else some (cs.foldl (fun acc c => 10 * acc + (c.toNat - 48)) 0)

/-- Parse a year-month-day triple separated by `sep`, with strptime's
range validation. -/
def parseYMD (s : String) (sep : Char) : Option (ℕ × ℕ × ℕ) :=
  match strSplit s sep with
  | [ys, ms, ds] =>
    match parseIntField ys 4, parseIntField ms 2, parseIntField ds 2 with
    | some y, some m, some d =>
      if 1 ≤ m && m ≤ 12 && 1 ≤ d && d ≤ daysInMonth y m then some (y, m, d) else none
    | _, _, _ => none
  | _ => none

/-- Parse the `%Y-%m-%d %H:%M:%S` format. -/
def parseFullDateTime (s : String) : Option PyDateTime :=
  match strSplit s ' ' with
  | [ds, ts] =>
    match parseYMD ds '-', strSplit ts ':' with
    | some (y, m, d), [hs, mins, ss] =>
      match parseIntField hs 2, parseIntField mins 2, parseIntField ss 2 with
      | some hh, some mi, some sec =>
        if hh ≤ 23 && mi ≤ 59 && sec ≤ 61 then some ⟨y, m, d, hh, mi, sec⟩ else none
      | _, _, _ => none
    | _, _ => none
  | _ => none

/-- Model of `explain._parse_date`: the four accepted formats tried in
order. -/
def parseDateTime? (s : String) : Option PyDateTime :=
  let t := pyStrip s
  if t == "" then none
  else match parseYMD t '-' with
  | some (y, m, d) => some ⟨y, m, d, 0, 0, 0⟩
  | none => match parseYMD t '/' with
    | some (y, m, d) => some ⟨y, m, d, 0, 0, 0⟩
    | none => match parseYMD t '.' with
      | some (y, m, d) => some ⟨y, m, d, 0, 0, 0⟩
      | none => parseFullDateTime t

/-- Order-preserving encoding of a parsed datetime (fields are within
their strptime ranges, so this respects the lexicographic datetime
order used by the source's sort). -/
def dateKey (d : PyDateTime) : ℕ :=
  ((((d.year * 13 + d.month) * 32 + d.day) * 24 + d.hour) * 60 + d.minute) * 62 + d.second

/-- Ascending-date relation for the stable series sort. -/
def dateAscRel (a b : PyDateTime × List (String × ℚ)) : Prop := dateKey a.1 ≤ dateKey b.1

instance : DecidableRel dateAscRel := fun a b => Nat.decLe (dateKey a.1) (dateKey b.1)

/-- Per-row numeric values of `_rule_recent_change`: each numeric
column's cell, stripped, commas removed, parsed as float. -/
def rowNumValues (r : CsvRow) (numCols : List String) : List (String × ℚ) :=
  numCols.foldl (fun acc ncol =>
    let raw := String.mk ((pyStrip (rowGet r ncol)).data.filter (fun c => c != ','))
    if raw == "" then acc
    else match pyFloat? raw with
      | none => acc
      | some q => acc ++ [(ncol, q)]) []

/-- The (date, values) series of `_rule_recent_change` for one date
column. -/
def buildSeries (rows : List CsvRow) (dcol : String) (numCols : List String) :
    List (PyDateTime × List (String × ℚ)) :=
  rows.foldl (fun acc r =>
    match parseDateTime? (rowGet r dcol) with
    | none => acc
    | some dt =>
      let values := rowNumValues r numCols
      if values.isEmpty then acc else acc ++ [(dt, values)]) []

/-- Mean of a rational list (callers guarantee at least two elements). -/
def listMeanQ (l : List ℚ) : ℚ := l.sum / (l.length : ℚ)

/-- Model of `_rule_recent_change`; reading the CSV file from disk is
modelled by passing the parsed rows. -/
def ruleRecentChange (profiles : List (String × ExplainProfile)) (rows : List CsvRow) :
    Option ReasonCandidate :=
  let dateCols := (profiles.filter (fun p => p.2.semanticType == "date")).map (fun p => p.1)
  let numCols := (profiles.filter (fun p => p.2.dtype == "float")).map (fun p => p.1)
  if dateCols.isEmpty || numCols.isEmpty then none
  else dateCols.foldl (fun best dcol =>
    let series := buildSeries rows dcol numCols
    if series.length < 6 then best
    else
      let sorted := series.insertionSort dateAscRel
      let window := max 3 (sorted.length / 5)
      let prev := (sorted.take (sorted.length - window)).drop (sorted.length - 2 * window)
      let recent := sorted.drop (sorted.length - window)
      if prev.isEmpty || recent.isEmpty then best
      else numCols.foldl (fun best ncol =>
        let prevVals := prev.filterMap (fun s => s.2.lookup ncol)
        let recentVals := recent.filterMap (fun s => s.2.lookup ncol)
        if prevVals.length < 2 || recentVals.length < 2 then best
        else
          let prevMean := listMeanQ prevVals
          let recentMean := listMeanQ recentVals
          let baseline := pyMaxQ (qAbs prevMean) (1 / 1000000000)
          let change := qAbs (recentMean - prevMean) / baseline
          if change < 1/2 then best
          else
            let score := pyRound2 (pyMinQ 100 (change * 100))
            match best with
            | none => some ⟨"최근 급변", score, ncol⟩
            | some b => if b.score < score then some ⟨"최근 급변", score, ncol⟩ else best)
        best) none

/-- Descending sort key of `generate_reason_candidates`: the pair
(score, rule name) compared lexicographically, reversed. -/
def candDescRelB (a b : ReasonCandidate) : Bool :=
  if b.score < a.score then true
  else if a.score < b.score then false
  else !(strLtb a.rule.data b.rule.data)

def candDescRel (a b : ReasonCandidate) : Prop := candDescRelB a b = true

instance : DecidableRel candDescRel := fun a b => instDecidableEqBool (candDescRelB a b) true

/-- Model of `generate_reason_candidates`: evaluate the four rules, drop
the abstentions, sort by (score, rule) descending and keep the top
`topK`. -/
def generateReasonCandidates (profiles : List (String × ExplainProfile)) (rows : List CsvRow)
    (topK : ℕ) : List ReasonCandidate :=
  let candidates := [ruleMissingConcentration profiles, ruleCategoryBias profiles,
    ruleUnitMismatch profiles, ruleRecentChange profiles rows]
  ((candidates.filterMap id).insertionSort candDescRel).take topK

/-- Scenario profiles of C7: one column with missing ratio 0.5 and no
other anomaly (dominant ratio below 0.65, no unit tokens, no date
column). -/
def c7Profiles : List (String × ExplainProfile) :=
  [("c1", ⟨1/2, "string", "text", 3/10, [⟨"v", 3/10⟩]⟩)]

/-! ## compare.py : the distribution comparator -/

/-- The comparator's probability floor `EPS = 1e-9`. -/
def EPS : ℚ := 1 / 1000000000

/-- Non-strict string order used to model Python `sorted` on strings. -/
def strLeRel (a b : String) : Prop := strLtb b.data a.data = false

instance : DecidableRel strLeRel := fun a b => instDecidableEqBool (strLtb b.data a.data) false

/-- Model of `_read_csv_text`: header line split on commas, subsequent
non-blank lines zipped against the header (an empty text has no header,
as `csv.DictReader` yields no fieldnames there; quoting and fields
beyond the header are not modelled). -/
def parseCSVText (text : String) : List String × List CsvRow :=
  if text == "" then ([], [])
  else match strSplit text '\n' with
  | [] => ([], [])
  | headerLine :: rest =>
    let header := strSplit headerLine ','
    ((header : List String), (rest.filter (fun l => l != "")).map (fun l => header.zip (strSplit l ',')))

/-- Model of `_safe_float` on a row cell (our float model never produces
`nan`/`inf`, so that filter of the source is vacuous here). -/
def safeFloatCell (r : CsvRow) (col : String) : Option ℚ := pyFloat? (pyStrip (rowGet r col))

/-- Model of `_is_numeric_column`: some non-empty cell exists and every
non-empty cell parses as a float. -/
def isNumericColumn (before after : List CsvRow) (col : String) : Bool :=
  let nonEmpty := ((before ++ after).map (fun r => pyStrip (rowGet r col))).filter
    (fun v => v != "")
  !nonEmpty.isEmpty && nonEmpty.all (fun v => (pyFloat? v).isSome)

/-- Model of `_normalize_probs`. -/
def normalizeProbs (values : List ℚ) : List ℚ :=
  let total := values.sum
  if total ≤ 0 then values.map (fun _ => 1 / (values.length : ℚ))
  else values.map (fun v => pyMaxQ (v / total) EPS)

/-- Model of `_psi` (float arithmetic as exact reals). -/
noncomputable def psiMetric (beforeProb afterProb : List ℚ) : ℝ :=
  ((beforeProb.zip afterProb).map
    (fun x => ((x.2 : ℝ) - (x.1 : ℝ)) * Real.log ((x.2 : ℝ) / (x.1 : ℝ)))).sum

/-- Kullback-Leibler sum of `_js_divergence`. -/
noncomputable def klSum (p q : List ℚ) : ℝ :=
  ((p.zip q).map (fun x => (x.1 : ℝ) * Real.log ((x.1 : ℝ) / (x.2 : ℝ)))).sum

/-- Model of `_js_divergence`. -/
noncomputable def jsDivergence (beforeProb afterProb : List ℚ) : ℝ :=
  let m := (beforeProb.zip afterProb).map (fun x => (x.1 + x.2) / 2)
  (1 / 2) * klSum beforeProb m + (1 / 2) * klSum afterProb m

/-- Model of `_chi_square`. -/
def chiSquare (beforeCounts afterCounts : List ℕ) : ℚ :=
  let beforeTotal := beforeCounts.sum
  let afterTotal := afterCounts.sum
  if beforeTotal == 0 || afterTotal == 0 then 0
  else ((beforeCounts.zip afterCounts).map (fun x =>
    let expected := pyMaxQ (((x.1 : ℚ) / (beforeTotal : ℚ)) * (afterTotal : ℚ)) EPS
    (((x.2 : ℚ) - expected) ^ 2) / expected)).sum

/-- The category set of a common column: sorted deduplicated stripped
values over both row sets (Python `sorted(set(...))`). -/
def catCategories (before after : List CsvRow) (col : String) : List String :=
  (((before ++ after).map (fun r => pyStrip (rowGet r col))).dedup).insertionSort strLeRel

/-- Model of `_categorical_distribution`: per category, the number of
rows whose stripped cell equals it. -/
def categoricalDistribution (rows : List CsvRow) (col : String) (categories : List String) :
    List ℕ :=
  categories.map (fun cat => rows.countP (fun r => pyStrip (rowGet r col) == cat))

/-- Model of `math.isclose` with its default tolerances. -/
def pyIsClose (a b : ℚ) : Bool :=
  decide (qAbs (a - b) ≤ pyMaxQ ((1 / 1000000000) * pyMaxQ (qAbs a) (qAbs b)) 0)

/-- Model of `_make_bins`. -/
def makeBins (values : List ℚ) : List ℚ :=
  if pyIsClose (values.foldl pyMinQ (values.headD 0)) (values.foldl pyMaxQ (values.headD 0)) then
    [values.foldl pyMinQ (values.headD 0) - 1 / 2, values.foldl pyMaxQ (values.headD 0) + 1 / 2]
  else
    List.map (fun i : ℕ =>
      values.foldl pyMinQ (values.headD 0) +
        (values.foldl pyMaxQ (values.headD 0) - values.foldl pyMinQ (values.headD 0)) / 10
          * (i : ℚ)) (List.range 10) ++
      [values.foldl pyMaxQ (values.headD 0)]

/-- The bucket a value falls into: the first half-open bin containing
it, the last bin being closed on both ends (the `break` of the source). -/
def bucketIndex (bins : List ℚ) (val : ℚ) : Option ℕ :=
  (List.range (bins.length - 1)).find? (fun i =>
    let lower := bins.getD i 0
    let upper := bins.getD (i + 1) 0
    if i + 2 < bins.length then decide (lower ≤ val) && decide (val < upper)
    else decide (lower ≤ val) && decide (val ≤ upper))

/-- Model of `_numeric_distribution`: per bucket, the number of rows
whose parsed value falls into it. -/
def numericDistribution (rows : List CsvRow) (col : String) (bins : List ℚ) : List ℕ :=
  (List.range (bins.length - 1)).map (fun i =>
    rows.countP (fun r =>
      match safeFloatCell r col with
      | none => false
      | some v => bucketIndex bins v == some i))

/-- The matched bucket counts of one common column in
`compare_csv_texts` (`none` when the column is skipped by `continue`). -/
def bucketCounts (before after : List CsvRow) (col : String) : Option (List ℕ × List ℕ) :=
  if isNumericColumn before after col then
    let allVals := (before ++ after).filterMap (fun r => safeFloatCell r col)
    if allVals.isEmpty then none
    else
      let bins := makeBins allVals
      some (numericDistribution before col bins, numericDistribution after col bins)
  else
    let cats := catCategories before after col
    if cats.isEmpty then none
    else some (categoricalDistribution before col cats, categoricalDistribution after col cats)

/-- Sorted intersection of the two header column sets. -/
def commonColumns (beforeCols afterCols : List String) : List String :=
  ((beforeCols.filter (fun c => afterCols.contains c)).dedup).insertionSort strLeRel

/-- The common columns that receive metrics in `compare_csv_texts`. -/
def metricColumnsT (beforeText afterText : String) : List String :=
  (commonColumns (parseCSVText beforeText).1 (parseCSVText afterText).1).filter
    (fun col => (bucketCounts (parseCSVText beforeText).2 (parseCSVText afterText).2 col).isSome)

/-- The PSI metric of one column of `compare_csv_texts` (0 for skipped
columns). -/
noncomputable def psiOfT (beforeText afterText : String) (col : String) : ℝ :=
  match bucketCounts (parseCSVText beforeText).2 (parseCSVText afterText).2 col with
  | none => 0
  | some x =>
    psiMetric (normalizeProbs (x.1.map (fun n => (n : ℚ))))
      (normalizeProbs (x.2.map (fun n => (n : ℚ))))

/-- The Jensen-Shannon divergence of one column of `compare_csv_texts`. -/
noncomputable def jsOfT (beforeText afterText : String) (col : String) : ℝ :=
  match bucketCounts (parseCSVText beforeText).2 (parseCSVText afterText).2 col with
  | none => 0
  | some x =>
    jsDivergence (normalizeProbs (x.1.map (fun n => (n : ℚ))))
      (normalizeProbs (x.2.map (fun n => (n : ℚ))))

/-- The chi-square statistic of one column of `compare_csv_texts`. -/
def chiOfT (beforeText afterText : String) (col : String) : ℚ :=
  match bucketCounts (parseCSVText beforeText).2 (parseCSVText afterText).2 col with
  | none => 0
  | some x => chiSquare x.1 x.2

/-- Concrete comparison text of scenario A. -/
def c2Text : String := "city,sales\nseoul,100\nbusan,200\n"

/-- Concrete rows of the C10 witness: the before side has one empty
cell in column "k". -/
def c10Before : List CsvRow := [[("k", "a")], [("k", "")]]

/-- Concrete after-side rows of the C10 witness. -/
def c10After : List CsvRow := [[("k", "b")]]

/-! ## versioning.py : dataset fingerprint -/

/-- UTF-8 encoding of a character as a byte list (model of
`str.encode('utf-8')`). -/
def utf8Bytes (c : Char) : List ℕ :=
  if c.toNat < 0x80 then [c.toNat]
  else if c.toNat < 0x800 then [0xC0 + c.toNat / 64, 0x80 + c.toNat % 64]
  else if c.toNat < 0x10000 then
    [0xE0 + c.toNat / 4096, 0x80 + (c.toNat / 64) % 64, 0x80 + c.toNat % 64]
  else
    [0xF0 + c.toNat / 262144, 0x80 + (c.toNat / 4096) % 64,
      0x80 + (c.toNat / 64) % 64, 0x80 + c.toNat % 64]

/-- UTF-8 bytes of a string. -/
def strBytes (s : String) : List ℕ := s.data.flatMap utf8Bytes

/-- 32-bit rotate left. -/
def rotl (k n : ℕ) : ℕ := ((n <<< k) % 4294967296) ||| (n >>> (32 - k))

/-- 32-bit rotate right. -/
def rotr (k n : ℕ) : ℕ := (n >>> k) ||| ((n <<< (32 - k)) % 4294967296)

/-- Big-endian bytes of a 32-bit word. -/
def wordBytes (n : ℕ) : List ℕ := [n / 16777216 % 256, n / 65536 % 256, n / 256 % 256, n % 256]

/-- Group bytes into big-endian 32-bit words. -/
def bytesToWords : List ℕ → List ℕ
  | a :: b :: c :: d :: rest => (a * 16777216 + b * 65536 + c * 256 + d) :: bytesToWords rest
  | _ => []

/-- Merkle-Damgard padding shared by SHA-1 and SHA-256: append 0x80,
zero-pad to 56 mod 64, append the 8-byte big-endian bit length. -/
def mdPad (msg : List ℕ) : List ℕ :=
  msg ++ (0x80 :: List.replicate (((55 + 64 - msg.length % 64) % 64 + 1) - 1) 0) ++
    (List.range 8).map (fun i => (8 * msg.length) / 256 ^ (7 - i) % 256)

/-- Split a padded message into 64-byte chunks (the first argument is
structural fuel, instantiated with the message length). -/
def splitChunks : ℕ → List ℕ → List (List ℕ)
  | 0, _ => []
  | _, [] => []
  | fuel + 1, bytes => bytes.take 64 :: splitChunks fuel (bytes.drop 64)

/-- SHA-256 round constants. -/
def SHA256K : List ℕ := [
  1116352408, 1899447441, 3049323471, 3921009573,
  961987163, 1508970993, 2453635748, 2870763221,
  3624381080, 310598401, 607225278, 1426881987,
  1925078388, 2162078206, 2614888103, 3248222580,
  3835390401, 4022224774, 264347078, 604807628,
  770255983, 1249150122, 1555081692, 1996064986,
  2554220882, 2821834349, 2952996808, 3210313671,
  3336571891, 3584528711, 113926993, 338241895,
  666307205, 773529912, 1294757372, 1396182291,
  1695183700, 1986661051, 2177026350, 2456956037,
  2730485921, 2820302411, 3259730800, 3345764771,
  3516065817, 3600352804, 4094571909, 275423344,
  430227734, 506948616, 659060556, 883997877,
  958139571, 1322822218, 1537002063, 1747873779,
  1955562222, 2024104815, 2227730452, 2361852424,
  2428436474, 2756734187, 3204031479, 3329325298]

/-- SHA-256 message-schedule extension (the accumulator holds the words
in reverse). -/
def sha256SchedAux : ℕ → List ℕ → List ℕ
  | 0, rev => rev
  | fuel + 1, rev =>
    sha256SchedAux fuel
      ((((rev.get? 15).getD 0 +
          ((rotr 7 ((rev.get? 14).getD 0) ^^^ rotr 18 ((rev.get? 14).getD 0)) ^^^
            ((rev.get? 14).getD 0 >>> 3)) +
          (rev.get? 6).getD 0 +
          ((rotr 17 ((rev.get? 1).getD 0) ^^^ rotr 19 ((rev.get? 1).getD 0)) ^^^
            ((rev.get? 1).getD 0 >>> 10))) % 4294967296) :: rev)

/-- SHA-256 message schedule of one chunk. -/
def sha256Schedule (first16 : List ℕ) : List ℕ := (sha256SchedAux 48 first16.reverse).reverse

/-- SHA-256 compression rounds. -/
def sha256Rounds :
    List ℕ → List ℕ → ℕ × ℕ × ℕ × ℕ × ℕ × ℕ × ℕ × ℕ → ℕ × ℕ × ℕ × ℕ × ℕ × ℕ × ℕ × ℕ
  | wi :: ws, ki :: ks, (a, b, c, d, e, f, g, h) =>
    let s1 := (rotr 6 e ^^^ rotr 11 e) ^^^ rotr 25 e
    let ch := (e &&& f) ^^^ ((4294967295 - e) &&& g)
    let temp1 := (h + s1 + ch + ki + wi) % 4294967296
    let s0 := (rotr 2 a ^^^ rotr 13 a) ^^^ rotr 22 a
    let maj := ((a &&& b) ^^^ (a &&& c)) ^^^ (b &&& c)
    let temp2 := (s0 + maj) % 4294967296
    sha256Rounds ws ks
      ((temp1 + temp2) % 4294967296, a, b, c, (d + temp1) % 4294967296, e, f, g)
  | _, _, st => st

/-- One SHA-256 chunk step. -/
def sha256Chunk (st : ℕ × ℕ × ℕ × ℕ × ℕ × ℕ × ℕ × ℕ) (chunk : List ℕ) :
    ℕ × ℕ × ℕ × ℕ × ℕ × ℕ × ℕ × ℕ :=
  let (h0, h1, h2, h3, h4, h5, h6, h7) := st
  let (a, b, c, d, e, f, g, h) :=
    sha256Rounds (sha256Schedule (bytesToWords chunk)) SHA256K
      (h0, h1, h2, h3, h4, h5, h6, h7)
  ((h0 + a) % 4294967296, (h1 + b) % 4294967296, (h2 + c) % 4294967296,
    (h3 + d) % 4294967296, (h4 + e) % 4294967296, (h5 + f) % 4294967296,
    (h6 + g) % 4294967296, (h7 + h) % 4294967296)

/-- SHA-256 digest bytes of a message. -/
def sha256Digest (msg : List ℕ) : List ℕ :=
  let padded := mdPad msg
  let st :=
    (splitChunks padded.length padded).foldl sha256Chunk
      (0x6a09e667, 0xbb67ae85, 0x3c6ef372, 0xa54ff53a,
        0x510e527f, 0x9b05688c, 0x1f83d9ab, 0x5be0cd19)
  wordBytes st.1 ++ wordBytes st.2.1 ++ wordBytes st.2.2.1 ++ wordBytes st.2.2.2.1 ++
    wordBytes st.2.2.2.2.1 ++ wordBytes st.2.2.2.2.2.1 ++ wordBytes st.2.2.2.2.2.2.1 ++
    wordBytes st.2.2.2.2.2.2.2

/-- Lower-case hexadecimal digit. -/
def hexChar (n : ℕ) : Char := Char.ofNat (if n < 10 then 48 + n else 87 + n)

/-- Hex digest string (model of `hashlib.sha256(...).hexdigest()`). -/
def sha256Hex (msg : List ℕ) : String :=
  String.join ((sha256Digest msg).map (fun b => String.mk [hexChar (b / 16), hexChar (b % 16)]))

/-- Decimal rendering of a natural number (model of Python `str(int)`),
used for the JSON row_count field. -/
def natDecimal (n : ℕ) : String :=
  if n == 0 then "0" else String.mk ((Nat.digits 10 n).reverse.map Nat.digitChar)

/-- JSON escape of one character (`json.dumps` with ensure_ascii set to
False keeps non-ASCII characters verbatim). -/
def jsonEscapeChar (c : Char) : String :=
  if c == '\"' then "\\\""
  else if c == '\\' then "\\\\"
  else if c == '\n' then "\\n"
  else if c == '\r' then "\\r"
  else if c == '\t' then "\\t"
  else if c.toNat == 8 then "\\b"
  else if c.toNat == 12 then "\\f"
  else if c.toNat < 32 then "\\u00" ++ String.mk [hexChar (c.toNat / 16), hexChar (c.toNat % 16)]
  else String.mk [c]

/-- JSON string literal. -/
def jsonStr (s : String) : String :=
  "\"" ++ String.join (s.data.map jsonEscapeChar) ++ "\""

/-- Key order for `json.dumps(..., sort_keys=True)` on the meta dict. -/
def metaLeRel (a b : String × String) : Prop := strLtb b.1.data a.1.data = false

instance : DecidableRel metaLeRel := fun a b => instDecidableEqBool (strLtb b.1.data a.1.data) false

/-- The canonical JSON text hashed by `build_dataset_fingerprint`:
`json.dumps(payload, ensure_ascii=False, sort_keys=True)` with the
default separators; the keys columns, csv_text, meta, row_count,
source_name appear in their sorted order.  `meta` is modelled as a
string-valued dict given as an association list. -/
def fingerprintPayload (sourceName : String) (header : List String) (rowCount : ℕ)
    (csvText : String) (meta : List (String × String)) : String :=
  "\x7b\"columns\": [" ++ String.intercalate ", " (header.map jsonStr) ++
    "], \"csv_text\": " ++ jsonStr csvText ++
    ", \"meta\": \x7b" ++
    String.intercalate ", "
      ((meta.insertionSort metaLeRel).map (fun p => jsonStr p.1 ++ ": " ++ jsonStr p.2)) ++
    "\x7d, \"row_count\": " ++ natDecimal rowCount ++
    ", \"source_name\": " ++ jsonStr sourceName ++ "\x7d"

/-- Model of the `DatasetVersion` dataclass. -/
structure DatasetVersion where
  fingerprint : String
  rowCount : ℕ
  columnCount : ℕ
  columns : List String
deriving DecidableEq

/-- The normalized lines of `build_dataset_fingerprint`: strip the
text, split into lines, drop blank lines, right-strip each kept line. -/
def normalizedLines (csvText : String) : List String :=
  ((strSplit (pyStrip csvText) '\n').filter (fun line => pyStrip line != "")).map pyRstrip

/-- The fingerprint built from the already-normalized lines (the body
of `build_dataset_fingerprint` factors through `normalizedLines`). -/
def fingerprintFromLines (lines : List String) (sourceName : String)
    (meta : List (String × String)) : DatasetVersion :=
  let header := match lines with
    | [] => []
    | l :: _ => strSplit l ','
  ⟨sha256Hex (strBytes (fingerprintPayload sourceName header (lines.length - 1)
      (String.intercalate "\n" lines) meta)),
    lines.length - 1, header.length, header⟩

/-- Model of `build_dataset_fingerprint`. -/
def buildDatasetFingerprint (csvText : String) (sourceName : String)
    (meta : List (String × String)) : DatasetVersion :=
  fingerprintFromLines (normalizedLines csvText) sourceName meta

/-! ## C4 : cap-overflow behaviour of the bounded counter -/

/-- Number of distinct non-missing values of a column. -/
def distinctValuesCount (cells : List String) : ℕ := (strippedValues cells).dedup.length

/-- Fresh pairwise-distinct whitespace-free value names. -/
def natName (i : ℕ) : String := String.mk ('x' :: (Nat.digits 10 i).map Nat.digitChar)

/-- A 5001-value column: one more distinct non-missing value than the
frequency-counter cap, each appearing once. -/
def c4Cells : List String := (List.range 5001).map natName

/-- The 5001-row single-column file realizing `c4Cells`. -/
def c4Rows : List CsvRow := c4Cells.map (fun v => [("c", v)])

/-! ## C1 : the approximate cardinality estimator -/

/-- SHA-1 message-schedule extension (accumulator reversed). -/
def sha1SchedAux : ℕ → List ℕ → List ℕ
  | 0, rev => rev
  | fuel + 1, rev =>
    sha1SchedAux fuel
      ((rotl 1 (((rev.get? 2).getD 0 ^^^ (rev.get? 7).getD 0) ^^^
        ((rev.get? 13).getD 0 ^^^ (rev.get? 15).getD 0))) :: rev)

/-- SHA-1 message schedule of one chunk. -/
def sha1Schedule (first16 : List ℕ) : List ℕ := (sha1SchedAux 64 first16.reverse).reverse

/-- SHA-1 compression rounds. -/
def sha1Rounds : List ℕ → ℕ → ℕ × ℕ × ℕ × ℕ × ℕ → ℕ × ℕ × ℕ × ℕ × ℕ
  | [], _, st => st
  | wi :: ws, i, (a, b, c, d, e) =>
    let f := if i < 20 then (b &&& c) ||| ((4294967295 - b) &&& d)
      else if i < 40 then (b ^^^ c) ^^^ d
      else if i < 60 then ((b &&& c) ||| (b &&& d)) ||| (c &&& d)
      else (b ^^^ c) ^^^ d
    let k := if i < 20 then 0x5A827999 else if i < 40 then 0x6ED9EBA1
      else if i < 60 then 0x8F1BBCDC else 0xCA62C1D6
    sha1Rounds ws (i + 1) ((rotl 5 a + f + e + k + wi) % 4294967296, a, rotl 30 b, c, d)

/-- One SHA-1 chunk step. -/
def sha1Chunk (st : ℕ × ℕ × ℕ × ℕ × ℕ) (chunk : List ℕ) : ℕ × ℕ × ℕ × ℕ × ℕ :=
  let (h0, h1, h2, h3, h4) := st
  let (a, b, c, d, e) := sha1Rounds (sha1Schedule (bytesToWords chunk)) 0 (h0, h1, h2, h3, h4)
  ((h0 + a) % 4294967296, (h1 + b) % 4294967296, (h2 + c) % 4294967296,
    (h3 + d) % 4294967296, (h4 + e) % 4294967296)

/-- SHA-1 digest bytes of a message. -/
def sha1Digest (msg : List ℕ) : List ℕ :=
  let padded := mdPad msg
  let st := (splitChunks padded.length padded).foldl sha1Chunk
    (0x67452301, 0xEFCDAB89, 0x98BADCFE, 0x10325476, 0xC3D2E1F0)
  wordBytes st.1 ++ wordBytes st.2.1 ++ wordBytes st.2.2.1 ++ wordBytes st.2.2.2.1 ++
    wordBytes st.2.2.2.2

/-- Big-endian byte-list value (model of `int.from_bytes(..., 'big')`). -/
def fromBytesBE (l : List ℕ) : ℕ := l.foldl (fun acc b => acc * 256 + b) 0

/-- Model of `_update_unique_bitmap`'s bit index: the first eight bytes
of the SHA-1 digest of the UTF-8 value, big-endian, reduced mod the
bitmap size. -/
def uniqueHashIdx (value : String) : ℕ :=
  fromBytesBE ((sha1Digest (strBytes value)).take 8) % UNIQUE_BITMAP_SIZE

/-- Setting one bitmap bit, with the bitmap modelled as its set of set
bit indices (the bytearray `|=` sets the bit, and the popcount of the
bytearray is exactly the number of distinct indices inserted). -/
def bmInsert (bm : List ℕ) (i : ℕ) : List ℕ := if i ∈ bm then bm else i :: bm

/-- Bitmap fold over a stream of non-missing values. -/
def bmFold (vals : List String) (bm : List ℕ) : List ℕ :=
  vals.foldl (fun bm v => bmInsert bm (uniqueHashIdx v)) bm

/-- The final bitmap of one column. -/
def bitmapOf (vals : List String) : List ℕ := bmFold vals []

/-- Number of set bits (`sum(bin(b).count('1') ...)`). -/
def setBitsOf (vals : List String) : ℕ := (bitmapOf vals).length

open Classical in
/-- Python `round` on a float, modelled on exact reals: round half to
even. -/
noncomputable def pyRoundR (x : ℝ) : ℤ :=
  if x - (⌊x⌋ : ℝ) < 1 / 2 then ⌊x⌋
  else if (1 : ℝ) / 2 < x - (⌊x⌋ : ℝ) then ⌊x⌋ + 1
  else if ⌊x⌋ % 2 = 0 then ⌊x⌋ else ⌊x⌋ + 1

/-- Model of `_estimate_unique_count`: linear counting
`max(1, round(-B*log(zero_bits/B)))`, with the two boundary guards of
the source; `math.log` on floats is modelled as `Real.log`. -/
noncomputable def estimateUniqueCount (setBits : ℕ) : ℕ :=
  if setBits = 0 then 0
  else if UNIQUE_BITMAP_SIZE ≤ setBits then UNIQUE_BITMAP_SIZE
  else (max 1 (pyRoundR (-(UNIQUE_BITMAP_SIZE : ℝ) *
    Real.log (((UNIQUE_BITMAP_SIZE - setBits : ℕ) : ℝ) / (UNIQUE_BITMAP_SIZE : ℝ))))).toNat

/-- The `unique_count` stored in a column profile. -/
noncomputable def uniqueCountOf (vals : List String) : ℕ := estimateUniqueCount (setBitsOf vals)

/-- The 256 probe values of the C1 counterexample, split for chunked evaluation. -/
def c1Chunk0 : List String :=
  ["v0", "v1", "v2", "v3", "v4", "v5", "v6", "v7", "v8", "v9", "v10", "v11", "v12", "v13", "v14", "v15", "v16", "v17", "v18", "v19", "v20", "v21", "v22", "v23", "v24", "v25", "v26", "v27", "v28", "v29", "v30", "v31"]

def c1Chunk1 : List String :=
  ["v32", "v33", "v34", "v35", "v36", "v37", "v38", "v39", "v40", "v41", "v42", "v43", "v44", "v45", "v46", "v47", "v48", "v49", "v50", "v51", "v52", "v53", "v54", "v55", "v56", "v57", "v58", "v59", "v60", "v61", "v62", "v63"]

def c1Chunk2 : List String :=
  ["v64", "v65", "v66", "v67", "v68", "v69", "v70", "v71", "v72", "v73", "v74", "v75", "v76", "v77", "v78", "v79", "v80", "v81", "v82", "v83", "v84", "v85", "v86", "v87", "v88", "v89", "v90", "v91", "v92", "v93", "v94", "v95"]

def c1Chunk3 : List String :=
  ["v96", "v97", "v98", "v99", "v100", "v101", "v102", "v103", "v104", "v105", "v106", "v107", "v108", "v109", "v110", "v111", "v112", "v113", "v114", "v115", "v116", "v117", "v118", "v119", "v120", "v121", "v122", "v123", "v124", "v125", "v126", "v127"]

def c1Chunk4 : List String :=
  ["v128", "v129", "v130", "v131", "v132", "v133", "v134", "v135", "v136", "v137", "v138", "v139", "v140", "v141", "v142", "v143", "v144", "v145", "v146", "v147", "v148", "v149", "v150", "v151", "v152", "v153", "v154", "v155", "v156", "v157", "v158", "v159"]

def c1Chunk5 : List String :=
  ["v160", "v161", "v162", "v163", "v165", "v166", "v167", "v168", "v169", "v170", "v171", "v172", "v173", "v174", "v175", "v176", "v177", "v178", "v179", "v180", "v181", "v182", "v183", "v184", "v185", "v186", "v187", "v188", "v189", "v190", "v191", "v192"]

def c1Chunk6 : List String :=
  ["v193", "v194", "v195", "v196", "v197", "v198", "v199", "v200", "v201", "v202", "v203", "v204", "v205", "v206", "v207", "v208", "v209", "v210", "v211", "v212", "v213", "v214", "v215", "v216", "v217", "v218", "v219", "v220", "v221", "v222", "v223", "v224"]

def c1Chunk7 : List String :=
  ["v225", "v226", "v227", "v228", "v229", "v230", "v231", "v232", "v233", "v234", "v235", "v236", "v237", "v238", "v239", "v240", "v241", "v242", "v243", "v244", "v245", "v246", "v247", "v248", "v249", "v250", "v251", "v252", "v253", "v254", "v255", "v256"]

/-- Bitmap literal after chunk 0. -/
def c1Bm0 : List ℕ :=
  [37797, 29947, 45629, 27373, 58255, 43718, 52357, 48087, 7205, 48477, 41399, 49287, 48654, 40949, 10772, 29565, 46785, 42728, 22534, 58475, 18335, 53360, 48693, 24390, 28760, 36945, 46370, 33533, 7652, 54662, 8409, 64137]

/-- Bitmap literal after chunk 1. -/
def c1Bm1 : List ℕ :=
  [956, 46919, 20834, 15295, 233, 30542, 59185, 51700, 60557, 54831, 12718, 58073, 39256, 43417, 60299, 17582, 10459, 35913, 9146, 17233, 16594, 41189, 62881, 33989, 3995, 56394, 8818, 60377, 641, 3231, 18760, 10973, 37797, 29947, 45629, 27373, 58255, 43718, 52357, 48087, 7205, 48477, 41399, 49287, 48654, 40949, 10772, 29565, 46785, 42728, 22534, 58475, 18335, 53360, 48693, 24390, 28760, 36945, 46370, 33533, 7652, 54662, 8409, 64137]

/-- Bitmap literal after chunk 2. -/
def c1Bm2 : List ℕ :=
  [63799, 45055, 20734, 22958, 46335, 5494, 46061, 7785, 18770, 40997, 49917, 44798, 62036, 28511, 47386, 3074, 25540, 41670, 42956, 42098, 5709, 10774, 43458, 9271, 9338, 51946, 12936, 47645, 44266, 40755, 21535, 44016, 956, 46919, 20834, 15295, 233, 30542, 59185, 51700, 60557, 54831, 12718, 58073, 39256, 43417, 60299, 17582, 10459, 35913, 9146, 17233, 16594, 41189, 62881, 33989, 3995, 56394, 8818, 60377, 641, 3231, 18760, 10973, 37797, 29947, 45629, 27373, 58255, 43718, 52357, 48087, 7205, 48477, 41399, 49287, 48654, 40949, 10772, 29565, 46785, 42728, 22534, 58475, 18335, 53360, 48693, 24390, 28760, 36945, 46370, 33533, 7652, 54662, 8409, 64137]

/-- Bitmap literal after chunk 3. -/
def c1Bm3 : List ℕ :=
  [46836, 5723, 9111, 460, 24555, 48372, 19302, 57811, 8412, 22532, 55017, 58785, 37824, 40460, 9868, 38833, 27194, 47385, 23553, 56745, 15016, 33987, 44322, 41296, 62144, 22145, 62611, 27296, 25986, 21549, 42047, 53220, 63799, 45055, 20734, 22958, 46335, 5494, 46061, 7785, 18770, 40997, 49917, 44798, 62036, 28511, 47386, 3074, 25540, 41670, 42956, 42098, 5709, 10774, 43458, 9271, 9338, 51946, 12936, 47645, 44266, 40755, 21535, 44016, 956, 46919, 20834, 15295, 233, 30542, 59185, 51700, 60557, 54831, 12718, 58073, 39256, 43417, 60299, 17582, 10459, 35913, 9146, 17233, 16594, 41189, 62881, 33989, 3995, 56394, 8818, 60377, 641, 3231, 18760, 10973, 37797, 29947, 45629, 27373, 58255, 43718, 52357, 48087, 7205, 48477, 41399, 49287, 48654, 40949, 10772, 29565, 46785, 42728, 22534, 58475, 18335, 53360, 48693, 24390, 28760, 36945, 46370, 33533, 7652, 54662, 8409, 64137]

/-- Bitmap literal after chunk 4. -/
def c1Bm4 : List ℕ :=
  [28906, 14923, 6423, 32587, 20256, 44142, 25152, 46444, 11771, 28296, 55744, 35501, 50334, 44639, 43436, 54344, 58947, 56272, 44851, 55365, 2017, 14248, 6193, 48803, 34592, 17610, 31413, 24053, 25584, 32980, 49262, 11634, 46836, 5723, 9111, 460, 24555, 48372, 19302, 57811, 8412, 22532, 55017, 58785, 37824, 40460, 9868, 38833, 27194, 47385, 23553, 56745, 15016, 33987, 44322, 41296, 62144, 22145, 62611, 27296, 25986, 21549, 42047, 53220, 63799, 45055, 20734, 22958, 46335, 5494, 46061, 7785, 18770, 40997, 49917, 44798, 62036, 28511, 47386, 3074, 25540, 41670, 42956, 42098, 5709, 10774, 43458, 9271, 9338, 51946, 12936, 47645, 44266, 40755, 21535, 44016, 956, 46919, 20834, 15295, 233, 30542, 59185, 51700, 60557, 54831, 12718, 58073, 39256, 43417, 60299, 17582, 10459, 35913, 9146, 17233, 16594, 41189, 62881, 33989, 3995, 56394, 8818, 60377, 641, 3231, 18760, 10973, 37797, 29947, 45629, 27373, 58255, 43718, 52357, 48087, 7205, 48477, 41399, 49287, 48654, 40949, 10772, 29565, 46785, 42728, 22534, 58475, 18335, 53360, 48693, 24390, 28760, 36945, 46370, 33533, 7652, 54662, 8409, 64137]

/-- Bitmap literal after chunk 5. -/
def c1Bm5 : List ℕ :=
  [64108, 44654, 32046, 58756, 11527, 2949, 63580, 52368, 12103, 17145, 54191, 19701, 53072, 52246, 59497, 6292, 8585, 59081, 59654, 51100, 63878, 49992, 63892, 63345, 3310, 53773, 25432, 3130, 44944, 8368, 36205, 27469, 28906, 14923, 6423, 32587, 20256, 44142, 25152, 46444, 11771, 28296, 55744, 35501, 50334, 44639, 43436, 54344, 58947, 56272, 44851, 55365, 2017, 14248, 6193, 48803, 34592, 17610, 31413, 24053, 25584, 32980, 49262, 11634, 46836, 5723, 9111, 460, 24555, 48372, 19302, 57811, 8412, 22532, 55017, 58785, 37824, 40460, 9868, 38833, 27194, 47385, 23553, 56745, 15016, 33987, 44322, 41296, 62144, 22145, 62611, 27296, 25986, 21549, 42047, 53220, 63799, 45055, 20734, 22958, 46335, 5494, 46061, 7785, 18770, 40997, 49917, 44798, 62036, 28511, 47386, 3074, 25540, 41670, 42956, 42098, 5709, 10774, 43458, 9271, 9338, 51946, 12936, 47645, 44266, 40755, 21535, 44016, 956, 46919, 20834, 15295, 233, 30542, 59185, 51700, 60557, 54831, 12718, 58073, 39256, 43417, 60299, 17582, 10459, 35913, 9146, 17233, 16594, 41189, 62881, 33989, 3995, 56394, 8818, 60377, 641, 3231, 18760, 10973, 37797, 29947, 45629, 27373, 58255, 43718, 52357, 48087, 7205, 48477, 41399, 49287, 48654, 40949, 10772, 29565, 46785, 42728, 22534, 58475, 18335, 53360, 48693, 24390, 28760, 36945, 46370, 33533, 7652, 54662, 8409, 64137]

/-- Bitmap literal after chunk 6. -/
def c1Bm6 : List ℕ :=
  [50806, 43059, 31657, 27182, 44341, 8304, 18039, 10464, 55484, 52858, 26462, 20913, 12252, 3145, 13129, 39269, 56673, 45865, 39589, 53679, 11678, 13090, 39065, 39251, 383, 21471, 45912, 20230, 39623, 42888, 62084, 2945, 64108, 44654, 32046, 58756, 11527, 2949, 63580, 52368, 12103, 17145, 54191, 19701, 53072, 52246, 59497, 6292, 8585, 59081, 59654, 51100, 63878, 49992, 63892, 63345, 3310, 53773, 25432, 3130, 44944, 8368, 36205, 27469, 28906, 14923, 6423, 32587, 20256, 44142, 25152, 46444, 11771, 28296, 55744, 35501, 50334, 44639, 43436, 54344, 58947, 56272, 44851, 55365, 2017, 14248, 6193, 48803, 34592, 17610, 31413, 24053, 25584, 32980, 49262, 11634, 46836, 5723, 9111, 460, 24555, 48372, 19302, 57811, 8412, 22532, 55017, 58785, 37824, 40460, 9868, 38833, 27194, 47385, 23553, 56745, 15016, 33987, 44322, 41296, 62144, 22145, 62611, 27296, 25986, 21549, 42047, 53220, 63799, 45055, 20734, 22958, 46335, 5494, 46061, 7785, 18770, 40997, 49917, 44798, 62036, 28511, 47386, 3074, 25540, 41670, 42956, 42098, 5709, 10774, 43458, 9271, 9338, 51946, 12936, 47645, 44266, 40755, 21535, 44016, 956, 46919, 20834, 15295, 233, 30542, 59185, 51700, 60557, 54831, 12718, 58073, 39256, 43417, 60299, 17582, 10459, 35913, 9146, 17233, 16594, 41189, 62881, 33989, 3995, 56394, 8818, 60377, 641, 3231, 18760, 10973, 37797, 29947, 45629, 27373, 58255, 43718, 52357, 48087, 7205, 48477, 41399, 49287, 48654, 40949, 10772, 29565, 46785, 42728, 22534, 58475, 18335, 53360, 48693, 24390, 28760, 36945, 46370, 33533, 7652, 54662, 8409, 64137]

/-- Bitmap literal after chunk 7. -/
def c1Bm7 : List ℕ :=
  [43853, 49755, 1489, 49359, 1719, 37659, 38174, 2465, 1944, 31821, 15354, 21258, 17751, 47938, 33879, 30069, 20549, 40403, 4801, 44976, 13472, 30158, 11123, 12823, 58048, 19130, 875, 33434, 63095, 18790, 61630, 22674, 50806, 43059, 31657, 27182, 44341, 8304, 18039, 10464, 55484, 52858, 26462, 20913, 12252, 3145, 13129, 39269, 56673, 45865, 39589, 53679, 11678, 13090, 39065, 39251, 383, 21471, 45912, 20230, 39623, 42888, 62084, 2945, 64108, 44654, 32046, 58756, 11527, 2949, 63580, 52368, 12103, 17145, 54191, 19701, 53072, 52246, 59497, 6292, 8585, 59081, 59654, 51100, 63878, 49992, 63892, 63345, 3310, 53773, 25432, 3130, 44944, 8368, 36205, 27469, 28906, 14923, 6423, 32587, 20256, 44142, 25152, 46444, 11771, 28296, 55744, 35501, 50334, 44639, 43436, 54344, 58947, 56272, 44851, 55365, 2017, 14248, 6193, 48803, 34592, 17610, 31413, 24053, 25584, 32980, 49262, 11634, 46836, 5723, 9111, 460, 24555, 48372, 19302, 57811, 8412, 22532, 55017, 58785, 37824, 40460, 9868, 38833, 27194, 47385, 23553, 56745, 15016, 33987, 44322, 41296, 62144, 22145, 62611, 27296, 25986, 21549, 42047, 53220, 63799, 45055, 20734, 22958, 46335, 5494, 46061, 7785, 18770, 40997, 49917, 44798, 62036, 28511, 47386, 3074, 25540, 41670, 42956, 42098, 5709, 10774, 43458, 9271, 9338, 51946, 12936, 47645, 44266, 40755, 21535, 44016, 956, 46919, 20834, 15295, 233, 30542, 59185, 51700, 60557, 54831, 12718, 58073, 39256, 43417, 60299, 17582, 10459, 35913, 9146, 17233, 16594, 41189, 62881, 33989, 3995, 56394, 8818, 60377, 641, 3231, 18760, 10973, 37797, 29947, 45629, 27373, 58255, 43718, 52357, 48087, 7205, 48477, 41399, 49287, 48654, 40949, 10772, 29565, 46785, 42728, 22534, 58475, 18335, 53360, 48693, 24390, 28760, 36945, 46370, 33533, 7652, 54662, 8409, 64137]

/-- The C1 counterexample column: 256 distinct short strings whose bitmap indices are pairwise distinct. -/
def c1Cells : List String :=
  ((((((c1Chunk0 ++ c1Chunk1) ++ c1Chunk2) ++ c1Chunk3) ++ c1Chunk4) ++ c1Chunk5) ++ c1Chunk6) ++ c1Chunk7

/-- The counterexample rows: one column `col` holding the probe values. -/
def c1Rows : List CsvRow := c1Cells.map (fun v => [("col", v)])

/-- C5: numeric coercion maps "1,234.5" to 1234.5, "(3.2)" to -3.2,
"$100" to 100.0, whitespace-only to not-numeric, "1,234.50" to 1234.5,
"(5)" to -5.0, "₩1000" to 1000.0 and "" to None.  The "never raises"
part of the claim is inherent: `toFloat?` is a total function returning
`none` on every parse failure. -/
theorem toFloat_concrete_values :
    toFloat? "1,234.5" = some (2469 / 2) ∧
    toFloat? "(3.2)" = some (-(16 / 5)) ∧
    toFloat? "$100" = some 100 ∧
    toFloat? "  " = none ∧
    toFloat? "1,234.50" = some (2469 / 2) ∧
    toFloat? "(5)" = some (-5) ∧
    toFloat? "₩1000" = some 1000 ∧
    toFloat? "" = none := by
  decide

/-- C9: parenthesis negation is applied after parsing the inner text, so
`_to_float "(-5)"` parses the inner "-5" and negates it, returning +5. -/
theorem toFloat_paren_negative_inner : toFloat? "(-5)" = some 5 := by decide

/-- C6: per column, every row is counted exactly once as missing or as
non-missing, so the two counts sum to the row count. -/
theorem missing_plus_non_missing_eq_row_count (rows : List CsvRow) (col : String) :
    missingCount (columnCells rows col) + nonMissingCount (columnCells rows col)
      = rows.length := by
  have hb : ∀ v : String, (pyStrip v != "") = !(pyStrip v == "") := fun _ => rfl
  have h : ∀ cells : List String, missingCount cells + nonMissingCount cells = cells.length := by
    intro cells
    induction cells with
    | nil => rfl
    | cons c cs ih =>
      simp only [missingCount, nonMissingCount, List.countP_cons, hb] at ih ⊢
      cases hc : pyStrip c == "" <;> simp only [hc, Bool.not_true, Bool.not_false] <;>
        simp <;> omega
  rw [h (columnCells rows col)]
  simp [columnCells]

/-- The top pairs of a column are sorted by descending count. -/
theorem topPairs_sorted (vals : List String) :
    (topPairsOf vals).Pairwise countDescRel := by
  unfold topPairsOf
  by_cases h : 0 < (counterStateOf vals).2
  · simp only [h, if_true]
    exact (List.sorted_insertionSort countDescRel _).sublist (List.take_sublist _ _)
  · simp only [h, if_false]
    exact (List.sorted_insertionSort countDescRel _).sublist (List.take_sublist _ _)

/-- C8 (amended): for every file and column, `top_values` is ordered by
descending count (ties keep the counter's stable order, see the
counterexample for the ascending-value tie-break) and never exceeds
five entries. -/
theorem top_values_sorted_and_bounded (rows : List CsvRow) (col : String) :
    ((topValuesOf (columnCells rows col)).Pairwise fun a b => b.count ≤ a.count) ∧
      (topValuesOf (columnCells rows col)).length ≤ 5 := by
  constructor
  · unfold topValuesOf
    rw [List.pairwise_map]
    exact topPairs_sorted _
  · unfold topValuesOf
    rw [List.length_map]
    unfold topPairsOf
    by_cases h : 0 < (counterStateOf (strippedValues (columnCells rows col))).2
    · simp only [h, if_true]
      exact List.length_take_le _ _
    · simp only [h, if_false]
      exact List.length_take_le _ _

/-- C8 counterexample: with the tie of counts between "b" and "a", the
stable sort keeps the first-seen value "b" first, so `top_values` is not
ordered by ascending value on equal counts as the claim states. -/
theorem top_values_tie_not_ascending :
    ¬ ((topValuesOf (columnCells c8Rows "c")).Pairwise fun a b =>
        b.count < a.count ∨ (a.count = b.count ∧ strLtb b.value.data a.value.data = false)) := by
  decide

/-- The running maximum used by `max(targets, key=...)` is an element of
the candidate list. -/
theorem foldl_best_mem (ts : List (String × ExplainProfile)) :
    ∀ t : String × ExplainProfile,
      (ts.foldl (fun b p => if b.2.missingFrac < p.2.missingFrac then p else b) t) ∈ t :: ts := by
  induction ts with
  | nil => intro t; simp
  | cons x xs ih =>
    intro t
    simp only [List.foldl_cons]
    by_cases h : t.2.missingFrac < x.2.missingFrac
    · simp only [h, if_true]
      exact List.mem_cons_of_mem t (ih x)
    · simp only [h, if_false]
      rcases List.mem_cons.mp (ih t) with h3 | h3
      · rw [h3]; exact List.mem_cons_self t _
      · exact List.mem_cons_of_mem t (List.mem_cons_of_mem x h3)

/-- The running maximum dominates every element of the candidate list. -/
theorem foldl_best_ge (ts : List (String × ExplainProfile)) :
    ∀ t q, q ∈ t :: ts →
      q.2.missingFrac ≤
        (ts.foldl (fun b p => if b.2.missingFrac < p.2.missingFrac then p else b) t).2.missingFrac := by
  induction ts with
  | nil =>
    intro t q hq
    rw [List.mem_singleton] at hq
    rw [hq]
    simp
  | cons x xs ih =>
    intro t q hq
    simp only [List.foldl_cons]
    by_cases h : t.2.missingFrac < x.2.missingFrac
    · simp only [h, if_true]
      rcases List.mem_cons.mp hq with h1 | h1
      · rw [h1]
        exact le_trans (le_of_lt h) (ih x x (List.mem_cons_self _ _))
      · exact ih x q h1
    · simp only [h, if_false]
      rcases List.mem_cons.mp hq with h1 | h1
      · rw [h1]
        exact ih t t (List.mem_cons_self _ _)
      · rcases List.mem_cons.mp h1 with h2 | h2
        · rw [h2]
          exact le_trans (not_lt.mp h) (ih t t (List.mem_cons_self _ _))
        · exact ih t q (List.mem_cons_of_mem _ h2)

/-- C7: the missing-concentration rule triggers iff some column's
missing ratio is at least 0.2; it picks a column of maximal missing
ratio and scores round(min(100, ratio*100), 2); and the concrete
one-column scenario with missing ratio 0.5 and no other anomaly yields
exactly one candidate, named "결측 집중" with score 50. -/
theorem missing_concentration_rule_spec :
    (∀ profiles : List (String × ExplainProfile),
      (ruleMissingConcentration profiles).isSome ↔
        ∃ p ∈ profiles, (1 : ℚ)/5 ≤ p.2.missingFrac) ∧
    (∀ (profiles : List (String × ExplainProfile)) (c : ReasonCandidate),
      ruleMissingConcentration profiles = some c →
      ∃ p ∈ profiles, (1 : ℚ)/5 ≤ p.2.missingFrac ∧ c.column = p.1 ∧
        c.rule = "결측 집중" ∧
        c.score = pyRound2 (pyMinQ 100 (p.2.missingFrac * 100)) ∧
        ∀ q ∈ profiles, (1 : ℚ)/5 ≤ q.2.missingFrac → q.2.missingFrac ≤ p.2.missingFrac) ∧
    generateReasonCandidates c7Profiles [] 3 = [⟨"결측 집중", 50, "c1"⟩] := by
  refine ⟨?_, ?_, ?_⟩
  · intro profiles
    constructor
    · intro hsome
      cases ht : profiles.filter (fun p => decide ((1 : ℚ)/5 ≤ p.2.missingFrac)) with
      | nil =>
        rw [ruleMissingConcentration, ht] at hsome
        simp at hsome
      | cons t ts =>
        have htmem : t ∈ profiles.filter (fun p => decide ((1 : ℚ)/5 ≤ p.2.missingFrac)) := by
          rw [ht]; exact List.mem_cons_self t ts
        have h2 := List.mem_filter.mp htmem
        exact ⟨t, h2.1, by simpa using h2.2⟩
    · rintro ⟨p, hp, hge⟩
      have hmem : p ∈ profiles.filter (fun p => decide ((1 : ℚ)/5 ≤ p.2.missingFrac)) :=
        List.mem_filter.mpr ⟨hp, by simpa using hge⟩
      cases ht : profiles.filter (fun p => decide ((1 : ℚ)/5 ≤ p.2.missingFrac)) with
      | nil => rw [ht] at hmem; simp at hmem
      | cons t ts => rw [ruleMissingConcentration, ht]; rfl
  · intro profiles c hc
    cases ht : profiles.filter (fun p => decide ((1 : ℚ)/5 ≤ p.2.missingFrac)) with
    | nil =>
      rw [ruleMissingConcentration, ht] at hc
      exact absurd hc (by simp)
    | cons t ts =>
      rw [ruleMissingConcentration, ht] at hc
      have hbmem : (ts.foldl (fun b p => if b.2.missingFrac < p.2.missingFrac then p else b) t)
          ∈ t :: ts := foldl_best_mem ts t
      have hmem2 : (ts.foldl (fun b p => if b.2.missingFrac < p.2.missingFrac then p else b) t)
          ∈ profiles.filter (fun p => decide ((1 : ℚ)/5 ≤ p.2.missingFrac)) := by
        rw [ht]; exact hbmem
      have h3 := List.mem_filter.mp hmem2
      have hc2 := Option.some.inj hc
      refine ⟨_, h3.1, by simpa using h3.2, ?_, ?_, ?_, ?_⟩
      · rw [← hc2]
      · rw [← hc2]
      · rw [← hc2]
      · intro q hq hqge
        have hqmem : q ∈ profiles.filter (fun p => decide ((1 : ℚ)/5 ≤ p.2.missingFrac)) :=
          List.mem_filter.mpr ⟨hq, by simpa using hqge⟩
        rw [ht] at hqmem
        exact foldl_best_ge ts t q hqmem
  · decide

/-- Closed instantiation of the C7 theorem: the rule triggers on the
scenario profiles. -/
theorem missing_concentration_rule_spec_witness :
    (ruleMissingConcentration c7Profiles).isSome :=
  (missing_concentration_rule_spec.1 c7Profiles).mpr
    ⟨("c1", ⟨1/2, "string", "text", 3/10, [⟨"v", 3/10⟩]⟩), by decide, by norm_num⟩

/-- A probability times the log of its ratio to itself vanishes. -/
theorem mul_log_self_ratio_zero (a : ℚ) : (a : ℝ) * Real.log ((a : ℝ) / (a : ℝ)) = 0 := by
  by_cases h : (a : ℝ) = 0
  · rw [h, zero_mul]
  · rw [div_self h, Real.log_one, mul_zero]

/-- PSI of a distribution against itself is exactly zero. -/
theorem psiMetric_self (p : List ℚ) : psiMetric p p = 0 := by
  unfold psiMetric
  induction p with
  | nil => simp
  | cons a as ih =>
    simp only [List.zip_cons_cons, List.map_cons, List.sum_cons, sub_self, zero_mul, zero_add]
    exact ih

/-- KL sum of a distribution against itself is exactly zero. -/
theorem klSum_self (p : List ℚ) : klSum p p = 0 := by
  unfold klSum
  induction p with
  | nil => simp
  | cons a as ih =>
    simp only [List.zip_cons_cons, List.map_cons, List.sum_cons]
    rw [mul_log_self_ratio_zero, zero_add]
    exact ih

/-- The midpoint distribution of a distribution with itself is itself. -/
theorem zip_self_midpoint (p : List ℚ) :
    (p.zip p).map (fun x => (x.1 + x.2) / 2) = p := by
  induction p with
  | nil => simp
  | cons a as ih =>
    simp only [List.zip_cons_cons, List.map_cons, ih, List.cons.injEq, and_true]
    ring

/-- Jensen-Shannon divergence of a distribution against itself is
exactly zero. -/
theorem jsDivergence_self (p : List ℚ) : jsDivergence p p = 0 := by
  unfold jsDivergence
  rw [zip_self_midpoint]
  show (1 : ℝ) / 2 * klSum p p + 1 / 2 * klSum p p = 0
  rw [klSum_self]
  ring

/-- Per-term analysis of the chi-square sum of identical count vectors:
the sum is nonnegative and at most one epsilon per bucket. -/
theorem chiSquare_zip_self_bounds (l : List ℕ) (T : ℕ) (hT : T ≠ 0) :
    0 ≤ ((l.zip l).map (fun x =>
        let expected := pyMaxQ (((x.1 : ℚ) / (T : ℚ)) * (T : ℚ)) EPS
        (((x.2 : ℚ) - expected) ^ 2) / expected)).sum ∧
    ((l.zip l).map (fun x =>
        let expected := pyMaxQ (((x.1 : ℚ) / (T : ℚ)) * (T : ℚ)) EPS
        (((x.2 : ℚ) - expected) ^ 2) / expected)).sum ≤ (l.length : ℚ) * EPS := by
  induction l with
  | nil => simp
  | cons a as ih =>
    simp only [List.zip_cons_cons, List.map_cons, List.sum_cons, List.length_cons]
    have hTQ : (T : ℚ) ≠ 0 := Nat.cast_ne_zero.mpr hT
    have hterm : (0 : ℚ) ≤
        (((a : ℚ) - pyMaxQ (((a : ℚ) / (T : ℚ)) * (T : ℚ)) EPS) ^ 2) /
          pyMaxQ (((a : ℚ) / (T : ℚ)) * (T : ℚ)) EPS ∧
        (((a : ℚ) - pyMaxQ (((a : ℚ) / (T : ℚ)) * (T : ℚ)) EPS) ^ 2) /
          pyMaxQ (((a : ℚ) / (T : ℚ)) * (T : ℚ)) EPS ≤ EPS := by
      have hdiv : ((a : ℚ) / (T : ℚ)) * (T : ℚ) = (a : ℚ) := div_mul_cancel₀ _ hTQ
      rw [hdiv]
      by_cases ha : a = 0
      · subst ha
        have : pyMaxQ ((0 : ℕ) : ℚ) EPS = EPS := by
          unfold pyMaxQ EPS
          norm_num
        rw [this]
        unfold EPS
        norm_num
      · have ha1 : (1 : ℚ) ≤ (a : ℚ) := by
          have := Nat.one_le_iff_ne_zero.mpr ha
          exact_mod_cast this
        have : pyMaxQ ((a : ℕ) : ℚ) EPS = (a : ℚ) := by
          unfold pyMaxQ
          rw [if_neg]
          rw [not_lt]
          unfold EPS
          linarith
        rw [this, sub_self]
        have hpos : (0 : ℚ) < (a : ℚ) := by linarith
        constructor
        · positivity
        · rw [zero_pow (by norm_num), zero_div]
          unfold EPS
          norm_num
    constructor
    · have := ih.1
      simp only at hterm this ⊢
      linarith [hterm.1]
    · have := ih.2
      simp only at hterm this ⊢
      push_cast
      linarith [hterm.2]

/-- Chi-square of identical count vectors with positive entries is 0. -/
theorem chiSquare_zip_self_pos_zero (l : List ℕ) (T : ℕ) (hT : T ≠ 0)
    (hpos : ∀ x ∈ l, 0 < x) :
    ((l.zip l).map (fun x =>
        let expected := pyMaxQ (((x.1 : ℚ) / (T : ℚ)) * (T : ℚ)) EPS
        (((x.2 : ℚ) - expected) ^ 2) / expected)).sum = 0 := by
  induction l with
  | nil => simp
  | cons a as ih =>
    simp only [List.zip_cons_cons, List.map_cons, List.sum_cons]
    have hTQ : (T : ℚ) ≠ 0 := Nat.cast_ne_zero.mpr hT
    have hdiv : ((a : ℚ) / (T : ℚ)) * (T : ℚ) = (a : ℚ) := div_mul_cancel₀ _ hTQ
    have ha : 0 < a := hpos a (List.mem_cons_self _ _)
    have ha1 : (1 : ℚ) ≤ (a : ℚ) := by exact_mod_cast Nat.one_le_iff_ne_zero.mpr (Nat.pos_iff_ne_zero.mp ha)
    have hmax : pyMaxQ (((a : ℚ) / (T : ℚ)) * (T : ℚ)) EPS = (a : ℚ) := by
      rw [hdiv]
      unfold pyMaxQ
      rw [if_neg]
      rw [not_lt]
      unfold EPS
      linarith
    simp only [hmax, sub_self]
    rw [zero_pow (by norm_num), zero_div, zero_add]
    exact ih (fun x hx => hpos x (List.mem_cons_of_mem _ hx))

/-- Chi-square of a count vector against itself: nonnegative, zero when
all counts are positive, and at most one epsilon per bucket in general. -/
theorem chiSquare_self_bounds (c : List ℕ) :
    0 ≤ chiSquare c c ∧ chiSquare c c ≤ (c.length : ℚ) * EPS ∧
      ((∀ x ∈ c, 0 < x) → chiSquare c c = 0) := by
  unfold chiSquare
  by_cases hT : c.sum = 0
  · simp only [hT]
    norm_num
    unfold EPS
    positivity
  · have hb : (c.sum == 0 || c.sum == 0) = false := by
      simp [hT]
    simp only [hb, Bool.false_eq_true, if_false]
    refine ⟨(chiSquare_zip_self_bounds c c.sum hT).1,
      (chiSquare_zip_self_bounds c c.sum hT).2, fun hpos => ?_⟩
    exact chiSquare_zip_self_pos_zero c c.sum hT hpos

/-- `_make_bins` yields 2 edges in the degenerate case and 11 otherwise. -/
theorem makeBins_length (vals : List ℚ) :
    (makeBins vals).length = 2 ∨ (makeBins vals).length = 11 := by
  unfold makeBins
  by_cases h : pyIsClose (vals.foldl pyMinQ (vals.headD 0)) (vals.foldl pyMaxQ (vals.headD 0)) = true
  · rw [if_pos h]; left; rfl
  · rw [if_neg h]; right
    rw [List.length_append, List.length_map, List.length_range]
    rfl

/-- Every category of a self-comparison is realized by some row, so its
count on either side is positive. -/
theorem catCategories_count_pos (rows : List CsvRow) (col : String) (cat : String)
    (hcat : cat ∈ catCategories rows rows col) :
    0 < rows.countP (fun r => pyStrip (rowGet r col) == cat) := by
  unfold catCategories at hcat
  rw [List.mem_insertionSort, List.mem_dedup, List.mem_map] at hcat
  obtain ⟨r, hr, hv⟩ := hcat
  rw [List.mem_append] at hr
  have hrr : r ∈ rows := by
    rcases hr with h | h
    · exact h
    · exact h
  rw [List.countP_pos_iff]
  exact ⟨r, hrr, by simp [hv]⟩

/-- The self-comparison of a row set yields identical count vectors on
both sides, which are short in the numeric case and entrywise positive
in the categorical case. -/
theorem bucketCounts_self_cases (rows : List CsvRow) (col : String) :
    bucketCounts rows rows col = none ∨
    ∃ c, bucketCounts rows rows col = some (c, c) ∧
      (c.length ≤ 10 ∨ ∀ x ∈ c, 0 < x) := by
  unfold bucketCounts
  by_cases h1 : isNumericColumn rows rows col = true
  · simp only [h1, if_true]
    by_cases h2 : ((rows ++ rows).filterMap (fun r => safeFloatCell r col)).isEmpty = true
    · simp only [h2, if_true]
      exact Or.inl (by trivial)
    · simp only [h2, Bool.false_eq_true, if_false]
      right
      refine ⟨_, rfl, Or.inl ?_⟩
      unfold numericDistribution
      rw [List.length_map, List.length_range]
      rcases makeBins_length ((rows ++ rows).filterMap (fun r => safeFloatCell r col)) with h | h
      · omega
      · omega
  · simp only [h1, Bool.false_eq_true, if_false]
    by_cases h2 : (catCategories rows rows col).isEmpty = true
    · simp only [h2, if_true]
      exact Or.inl (by trivial)
    · simp only [h2, Bool.false_eq_true, if_false]
      right
      refine ⟨_, rfl, Or.inr ?_⟩
      intro x hx
      unfold categoricalDistribution at hx
      rw [List.mem_map] at hx
      obtain ⟨cat, hcat, hx⟩ := hx
      rw [← hx]
      exact catCategories_count_pos rows col cat hcat

/-- C2: comparing a CSV text against itself yields PSI exactly 0,
Jensen-Shannon divergence exactly 0, and a chi-square that is
nonnegative and at most 1e-8 (ten empty-bucket epsilons), i.e. zero
within floating tolerance, for every column that receives metrics. -/
theorem compare_self_zero_drift (text : String) (col : String)
    (h : col ∈ metricColumnsT text text) :
    psiOfT text text col = 0 ∧ jsOfT text text col = 0 ∧
      0 ≤ chiOfT text text col ∧ chiOfT text text col ≤ 1 / 100000000 := by
  have hsome : (bucketCounts (parseCSVText text).2 (parseCSVText text).2 col).isSome := by
    unfold metricColumnsT at h
    have := (List.mem_filter.mp h).2
    simpa using this
  rcases bucketCounts_self_cases (parseCSVText text).2 col with hnone | ⟨c, hc, hprop⟩
  · rw [hnone] at hsome
    simp at hsome
  · refine ⟨?_, ?_, ?_, ?_⟩
    · unfold psiOfT
      rw [hc]
      exact psiMetric_self _
    · unfold jsOfT
      rw [hc]
      exact jsDivergence_self _
    · unfold chiOfT
      rw [hc]
      exact (chiSquare_self_bounds c).1
    · unfold chiOfT
      rw [hc]
      rcases hprop with hlen | hpos
      · have h1 := (chiSquare_self_bounds c).2.1
        have h2 : (c.length : ℚ) * EPS ≤ 10 * EPS := by
          have : (c.length : ℚ) ≤ 10 := by exact_mod_cast hlen
          unfold EPS
          nlinarith
        calc chiSquare c c ≤ (c.length : ℚ) * EPS := h1
          _ ≤ 10 * EPS := h2
          _ ≤ 1 / 100000000 := by unfold EPS; norm_num
      · show chiSquare c c ≤ 1 / 100000000
        rw [(chiSquare_self_bounds c).2.2 hpos]
        norm_num

/-- Closed instantiation of the C2 theorem at scenario A's text and its
categorical column "city". -/
theorem compare_self_zero_drift_witness :
    psiOfT c2Text c2Text "city" = 0 ∧ jsOfT c2Text c2Text "city" = 0 ∧
      0 ≤ chiOfT c2Text c2Text "city" ∧ chiOfT c2Text c2Text "city" ≤ 1 / 100000000 :=
  compare_self_zero_drift c2Text "city" (by decide)

/-- C10: in the comparator, for a common column not classified as
numeric, the empty string is one of the categorical buckets whenever
some row's cell is empty or missing, and the distribution vectors count
exactly the empty/missing cells at that bucket. -/
theorem categorical_missing_bucket (before afterRows : List CsvRow)
    (bcols acols : List String) (col : String)
    (hcommon : col ∈ commonColumns bcols acols)
    (hnum : isNumericColumn before afterRows col = false)
    (hempty : ∃ r ∈ before ++ afterRows, pyStrip (rowGet r col) = "") :
    "" ∈ catCategories before afterRows col ∧
    ∀ i : ℕ, (catCategories before afterRows col).get? i = some "" →
      (categoricalDistribution before col (catCategories before afterRows col)).get? i =
          some (before.countP (fun r => pyStrip (rowGet r col) == "")) ∧
        (categoricalDistribution afterRows col (catCategories before afterRows col)).get? i =
          some (afterRows.countP (fun r => pyStrip (rowGet r col) == "")) := by
  constructor
  · unfold catCategories
    rw [List.mem_insertionSort, List.mem_dedup, List.mem_map]
    obtain ⟨r, hr, hv⟩ := hempty
    exact ⟨r, hr, hv⟩
  · intro i hi
    constructor
    · unfold categoricalDistribution
      rw [List.get?_map, hi]
      rfl
    · unfold categoricalDistribution
      rw [List.get?_map, hi]
      rfl

/-- Closed instantiation of the C10 theorem. -/
theorem categorical_missing_bucket_witness :
    "" ∈ catCategories c10Before c10After "k" :=
  (categorical_missing_bucket c10Before c10After ["k"] ["k"] "k" (by decide) (by decide)
    ⟨[("k", "")], by decide, by decide⟩).1

/-- C3 (amended): the fingerprint is a pure function of the normalized
lines, the source name and the metadata: texts with equal normalized
lines (in particular, identical texts) fingerprint identically.  Only
changes that survive the normalization (trailing-whitespace stripping
and blank-line removal) can change the hash. -/
theorem fingerprint_pure_of_normalized (t1 t2 sourceName : String)
    (meta : List (String × String)) (h : normalizedLines t1 = normalizedLines t2) :
    buildDatasetFingerprint t1 sourceName meta = buildDatasetFingerprint t2 sourceName meta := by
  unfold buildDatasetFingerprint
  rw [h]

/-- C3 counterexample: appending a trailing space to the last data row
changes the row text but not the fingerprint, because the normalization
right-strips every line before hashing; so "any change to row content
changes the hash" is false as stated. -/
theorem fingerprint_trailing_space_collision :
    buildDatasetFingerprint "a,b\n1,2 " "d.csv" [] =
        buildDatasetFingerprint "a,b\n1,2" "d.csv" [] ∧
      "a,b\n1,2 " ≠ "a,b\n1,2" := by
  constructor
  · show fingerprintFromLines (normalizedLines "a,b\n1,2 ") "d.csv" [] =
      fingerprintFromLines (normalizedLines "a,b\n1,2") "d.csv" []
    rw [show normalizedLines "a,b\n1,2 " = normalizedLines "a,b\n1,2" from by decide]
  · decide

/-- Closed instantiation of the C3 theorem: a text with an extra blank
line normalizes to the same lines and fingerprints identically. -/
theorem fingerprint_pure_of_normalized_witness :
    buildDatasetFingerprint "a,b\n\n1,2\n" "w.csv" [] =
      buildDatasetFingerprint "a,b\n1,2" "w.csv" [] :=
  fingerprint_pure_of_normalized "a,b\n\n1,2\n" "a,b\n1,2" "w.csv" [] (by decide)

/-- `bumpKey` keeps the counter length. -/
theorem bumpKey_length (c : List (String × ℕ)) (v : String) :
    (bumpKey c v).length = c.length := by
  induction c with
  | nil => rfl
  | cons p rest ih =>
    unfold bumpKey
    by_cases h : p.1 == v <;> simp [h, ih]

/-- `bumpKey` keeps the key set. -/
theorem bumpKey_lookup_isSome (c : List (String × ℕ)) (v k : String) :
    (List.lookup k (bumpKey c v)).isSome = (List.lookup k c).isSome := by
  induction c with
  | nil => rfl
  | cons p rest ih =>
    obtain ⟨a, b⟩ := p
    unfold bumpKey
    by_cases h : a == v
    · simp only [h, if_true]
      rw [List.lookup_cons, List.lookup_cons]
      cases hk : k == a <;> simp
    · simp only [h, Bool.false_eq_true, if_false]
      rw [List.lookup_cons, List.lookup_cons]
      cases hk : k == a <;> simp [ih]

/-- Lookup skips an append when the key misses the first part. -/
theorem lookup_append_of_none (l₁ l₂ : List (String × ℕ)) (k : String)
    (h : List.lookup k l₁ = none) : List.lookup k (l₁ ++ l₂) = List.lookup k l₂ := by
  induction l₁ with
  | nil => rfl
  | cons p rest ih =>
    obtain ⟨a, b⟩ := p
    rw [List.lookup_cons] at h
    rw [List.cons_append, List.lookup_cons]
    cases hk : k == a
    · rw [hk] at h
      exact ih h
    · rw [hk] at h
      simp at h

/-- Lookup stays in the first part when the key hits it. -/
theorem lookup_append_isSome (l₁ l₂ : List (String × ℕ)) (k : String)
    (h : (List.lookup k l₁).isSome = true) :
    (List.lookup k (l₁ ++ l₂)).isSome = true := by
  induction l₁ with
  | nil => simp at h
  | cons p rest ih =>
    obtain ⟨a, b⟩ := p
    rw [List.lookup_cons] at h
    rw [List.cons_append, List.lookup_cons]
    cases hk : k == a
    · rw [hk] at h
      exact ih h
    · simp

/-- A present key is one of the counter keys. -/
theorem mem_keys_of_lookup_isSome (l : List (String × ℕ)) (k : String)
    (h : (List.lookup k l).isSome = true) : k ∈ l.map Prod.fst := by
  induction l with
  | nil => simp at h
  | cons p rest ih =>
    obtain ⟨a, b⟩ := p
    rw [List.lookup_cons] at h
    simp only [List.map_cons, List.mem_cons]
    cases hk : k == a
    · rw [hk] at h
      exact Or.inr (ih h)
    · exact Or.inl (by simpa using hk)

/-- One counter step never decreases the overflow count. -/
theorem updateBoundedCounter_overflow_mono (st : List (String × ℕ) × ℕ) (v : String) :
    st.2 ≤ (updateBoundedCounter st v).2 := by
  unfold updateBoundedCounter
  split_ifs <;> simp

/-- The counter fold never decreases the overflow count. -/
theorem counterFold_overflow_mono (vals : List String) :
    ∀ st : List (String × ℕ) × ℕ, st.2 ≤ (counterFold vals st).2 := by
  induction vals with
  | nil => intro st; exact le_refl _
  | cons x rest ih =>
    intro st
    calc st.2 ≤ (updateBoundedCounter st x).2 := updateBoundedCounter_overflow_mono st x
      _ ≤ (counterFold rest (updateBoundedCounter st x)).2 := ih _
      _ = (counterFold (x :: rest) st).2 := rfl

/-- The counter fold never drops a key. -/
theorem counterFold_lookup_mono (vals : List String) :
    ∀ (st : List (String × ℕ) × ℕ) (k : String), (List.lookup k st.1).isSome = true →
      (List.lookup k (counterFold vals st).1).isSome = true := by
  induction vals with
  | nil => intro st k h; exact h
  | cons x rest ih =>
    intro st k h
    have hstep : counterFold (x :: rest) st = counterFold rest (updateBoundedCounter st x) := rfl
    rw [hstep]
    refine ih _ k ?_
    unfold updateBoundedCounter
    split_ifs with h1 h2
    · rw [bumpKey_lookup_isSome]
      exact h
    · exact lookup_append_isSome _ _ _ h
    · exact h

/-- The counter never exceeds the cap. -/
theorem counterFold_length_le (vals : List String) :
    ∀ st : List (String × ℕ) × ℕ, st.1.length ≤ TOP_VALUE_TRACK_CAP →
      (counterFold vals st).1.length ≤ TOP_VALUE_TRACK_CAP := by
  induction vals with
  | nil => intro st h; exact h
  | cons x rest ih =>
    intro st h
    have hstep : counterFold (x :: rest) st = counterFold rest (updateBoundedCounter st x) := rfl
    rw [hstep]
    refine ih _ ?_
    unfold updateBoundedCounter
    split_ifs with h1 h2
    · rw [bumpKey_length]
      exact h
    · rw [List.length_append]
      simpa using h2
    · exact h

/-- When the fold ends with its starting overflow count, every processed
value is a key of the final counter. -/
theorem counterFold_mem_of_overflow_fixed (vals : List String) :
    ∀ st : List (String × ℕ) × ℕ, (counterFold vals st).2 = st.2 →
      ∀ v ∈ vals, (List.lookup v (counterFold vals st).1).isSome = true := by
  induction vals with
  | nil => intro st _ v hv; simp at hv
  | cons x rest ih =>
    intro st hov v hv
    have hstep : counterFold (x :: rest) st = counterFold rest (updateBoundedCounter st x) := rfl
    have h1 : st.2 ≤ (updateBoundedCounter st x).2 := updateBoundedCounter_overflow_mono st x
    have h2 : (updateBoundedCounter st x).2 ≤ (counterFold rest (updateBoundedCounter st x)).2 :=
      counterFold_overflow_mono rest _
    rw [hstep] at hov
    have hov' : (counterFold rest (updateBoundedCounter st x)).2 = (updateBoundedCounter st x).2 := by
      omega
    have hov'' : (updateBoundedCounter st x).2 = st.2 := by omega
    rcases List.mem_cons.mp hv with rfl | hv'
    · rw [hstep]
      refine counterFold_lookup_mono rest _ v ?_
      unfold updateBoundedCounter at hov'' ⊢
      split_ifs with hin hlt
      · rw [bumpKey_lookup_isSome]
        exact hin
      · have hnone : List.lookup v st.1 = none := by
          rcases h : List.lookup v st.1 with _ | b
          · rfl
          · rw [h] at hin; simp at hin
        rw [lookup_append_of_none _ _ _ hnone]
        rw [List.lookup_cons]
        simp
      · simp only [hin, hlt] at hov''
        simp at hov''
    · rw [hstep]
      exact ih _ hov' v hv'

/-- A duplicate-free list included in another list is no longer than it. -/
theorem nodup_subset_length {l₁ l₂ : List String} (h₁ : l₁.Nodup)
    (hsub : ∀ x ∈ l₁, x ∈ l₂) : l₁.length ≤ l₂.length := by
  calc l₁.length = l₁.toFinset.card := (List.toFinset_card_of_nodup h₁).symm
    _ ≤ l₂.toFinset.card := Finset.card_le_card (fun x hx => by
        rw [List.mem_toFinset] at hx ⊢
        exact hsub x hx)
    _ ≤ l₂.length := l₂.toFinset_card_le

/-- Cells-level core of the amended C4: more distinct non-missing
values than the cap forces a positive overflow count. -/
theorem capped_of_many_distinct_cells (cells : List String)
    (h : TOP_VALUE_TRACK_CAP < distinctValuesCount cells) :
    topValuesCappedOf cells = true := by
  unfold topValuesCappedOf
  rw [bne_iff_ne]
  intro h0
  have hmem : ∀ v ∈ strippedValues cells,
      (List.lookup v (counterStateOf (strippedValues cells)).1).isSome = true := by
    intro v hv
    exact counterFold_mem_of_overflow_fixed (strippedValues cells) ([], 0) h0 v hv
  have hsub : ∀ x ∈ (strippedValues cells).dedup,
      x ∈ (counterStateOf (strippedValues cells)).1.map Prod.fst := by
    intro x hx
    exact mem_keys_of_lookup_isSome _ _ (hmem x (List.mem_dedup.mp hx))
  have hlen : (strippedValues cells).dedup.length ≤
      (counterStateOf (strippedValues cells)).1.length := by
    have := nodup_subset_length (List.nodup_dedup _) hsub
    rwa [List.length_map] at this
  have hcap : (counterStateOf (strippedValues cells)).1.length ≤ TOP_VALUE_TRACK_CAP :=
    counterFold_length_le _ _ (by simp [TOP_VALUE_TRACK_CAP])
  unfold distinctValuesCount at h
  omega

/-- C4 (amended): for every file and column with more than 5000
distinct non-missing values, `top_values_capped` is true (the synthetic
`__OTHER__` entry is merged before the top-5 cut and so appears only
when its count ranks among the top five - see the counterexample). -/
theorem top_values_capped_of_many_distinct (rows : List CsvRow) (col : String)
    (h : 5000 < distinctValuesCount (columnCells rows col)) :
    topValuesCappedOf (columnCells rows col) = true :=
  capped_of_many_distinct_cells (columnCells rows col) h

/-- Mapping bounded digit lists through `Nat.digitChar` is injective. -/
theorem digits_map_digitChar_inj : ∀ l₁ l₂ : List ℕ, (∀ x ∈ l₁, x < 10) →
    (∀ x ∈ l₂, x < 10) → l₁.map Nat.digitChar = l₂.map Nat.digitChar → l₁ = l₂ := by
  have hdc : ∀ a, a < 10 → ∀ b, b < 10 → Nat.digitChar a = Nat.digitChar b → a = b := by decide
  intro l₁
  induction l₁ with
  | nil =>
    intro l₂ _ _ h
    cases l₂ with
    | nil => rfl
    | cons b bs => simp at h
  | cons a as ih =>
    intro l₂ h₁ h₂ h
    cases l₂ with
    | nil => simp at h
    | cons b bs =>
      simp only [List.map_cons, List.cons.injEq] at h
      have ha : a = b := hdc a (h₁ a (List.mem_cons_self _ _)) b (h₂ b (List.mem_cons_self _ _)) h.1
      have : as = bs := ih bs (fun x hx => h₁ x (List.mem_cons_of_mem _ hx))
        (fun x hx => h₂ x (List.mem_cons_of_mem _ hx)) h.2
      rw [ha, this]

/-- `natName` is injective. -/
theorem natName_injective : Function.Injective natName := by
  intro a b h
  unfold natName at h
  have h2 := congrArg String.data h
  simp only [List.cons.injEq] at h2
  replace h : ('x' = 'x') ∧
      (Nat.digits 10 a).map Nat.digitChar = (Nat.digits 10 b).map Nat.digitChar := by
    exact ⟨rfl, h2.2⟩
  have hd : Nat.digits 10 a = Nat.digits 10 b :=
    digits_map_digitChar_inj _ _ (fun x hx => Nat.digits_lt_base (by norm_num) hx)
      (fun x hx => Nat.digits_lt_base (by norm_num) hx) h.2
  have := congrArg (Nat.ofDigits 10) hd
  rwa [Nat.ofDigits_digits, Nat.ofDigits_digits] at this

/-- The characters of a `natName` are never whitespace. -/
theorem natName_chars_not_space (i : ℕ) : ∀ c ∈ (natName i).data, isPySpace c = false := by
  have hdigit : ∀ d, d < 10 → isPySpace (Nat.digitChar d) = false := by decide
  intro c hc
  unfold natName at hc
  rcases List.mem_cons.mp hc with rfl | hc
  · rfl
  · obtain ⟨d, hd, rfl⟩ := List.mem_map.mp hc
    exact hdigit d (Nat.digits_lt_base (by norm_num) hd)

/-- Dropping a predicate that holds nowhere is the identity. -/
theorem dropWhile_eq_self_of_none {p : Char → Bool} {l : List Char}
    (h : ∀ c ∈ l, p c = false) : l.dropWhile p = l := by
  cases l with
  | nil => rfl
  | cons a as =>
    rw [List.dropWhile_cons, h a (List.mem_cons_self _ _)]
    simp

/-- Stripping a string with no whitespace characters is the identity. -/
theorem pyStrip_eq_self_of_no_space (s : String) (h : ∀ c ∈ s.data, isPySpace c = false) :
    pyStrip s = s := by
  unfold pyStrip pyStripChars
  rw [dropWhile_eq_self_of_none h]
  rw [dropWhile_eq_self_of_none (fun c hc => h c (List.mem_reverse.mp hc))]
  rw [List.reverse_reverse]

/-- `natName`s survive the missing-value filter unchanged. -/
theorem strippedValues_c4 : strippedValues c4Cells = c4Cells := by
  unfold strippedValues
  have h1 : c4Cells.map pyStrip = c4Cells := by
    have := List.map_congr_left (l := c4Cells) (f := pyStrip) (g := id) ?_
    · rwa [List.map_id] at this
    · intro v hv
      obtain ⟨i, _, rfl⟩ := List.mem_map.mp hv
      exact pyStrip_eq_self_of_no_space _ (natName_chars_not_space i)
  rw [h1]
  rw [List.filter_eq_self]
  intro v hv
  obtain ⟨i, _, rfl⟩ := List.mem_map.mp hv
  rw [bne_iff_ne]
  intro hEq
  have := congrArg String.data hEq
  simp [natName] at this

/-- The single-column file built from a cell list yields that cell list
back as the column stream. -/
theorem columnCells_single (cells : List String) (c : String) :
    columnCells (cells.map (fun v => [(c, v)])) c = cells := by
  unfold columnCells
  rw [List.map_map]
  have := List.map_congr_left (l := cells) (f := (fun r => rowGet r c) ∘ fun v => [(c, v)])
    (g := id) ?_
  · rwa [List.map_id] at this
  · intro v _
    show (([(c, v)].reverse).lookup c).getD "" = v
    rw [List.reverse_singleton, List.lookup_cons]
    simp

/-- The fresh cells are pairwise distinct. -/
theorem c4Cells_nodup : c4Cells.Nodup :=
  (List.nodup_range 5001).map natName_injective

/-- Folding pairwise-distinct fresh values into the bounded counter
tracks them in arrival order until the cap and overflows the rest. -/
theorem counterFold_fresh (xs : List String) :
    ∀ (counter : List (String × ℕ)) (other : ℕ), xs.Nodup →
      (∀ v ∈ xs, List.lookup v counter = none) → counter.length ≤ TOP_VALUE_TRACK_CAP →
      counterFold xs (counter, other) =
        (counter ++ (xs.take (TOP_VALUE_TRACK_CAP - counter.length)).map (fun v => (v, 1)),
          other + (xs.length - (TOP_VALUE_TRACK_CAP - counter.length))) := by
  induction xs with
  | nil =>
    intro counter other _ _ _
    simp [counterFold]
  | cons x rest ih =>
    intro counter other hnodup hdisj hlen
    have hx : List.lookup x counter = none := hdisj x (List.mem_cons_self _ _)
    have hstep : counterFold (x :: rest) (counter, other) =
        counterFold rest (updateBoundedCounter (counter, other) x) := rfl
    by_cases hlt : counter.length < TOP_VALUE_TRACK_CAP
    · have hupdate : updateBoundedCounter (counter, other) x = (counter ++ [(x, 1)], other) := by
        unfold updateBoundedCounter
        simp [hx, hlt]
      rw [hstep, hupdate]
      rw [ih (counter ++ [(x, 1)]) other (List.Nodup.of_cons hnodup) ?_ ?_]
      · have hlen1 : (counter ++ [(x, 1)]).length = counter.length + 1 := by simp
        rw [hlen1]
        have hc : TOP_VALUE_TRACK_CAP - counter.length =
            (TOP_VALUE_TRACK_CAP - (counter.length + 1)) + 1 := by omega
        rw [hc, List.take_succ_cons, List.map_cons, List.append_assoc, List.singleton_append]
        rw [List.length_cons]
        have hn : rest.length - (TOP_VALUE_TRACK_CAP - (counter.length + 1)) =
            rest.length + 1 - ((TOP_VALUE_TRACK_CAP - (counter.length + 1)) + 1) := by omega
        rw [hn]
      · intro v hv
        rw [lookup_append_of_none _ _ _ (hdisj v (List.mem_cons_of_mem _ hv)), List.lookup_cons]
        have hne : v ≠ x := fun hEq => (List.nodup_cons.mp hnodup).1 (hEq ▸ hv)
        have hb : (v == x) = false := by simpa using hne
        rw [hb]
        rfl
      · rw [List.length_append]
        simpa using hlt
    · have hupdate : updateBoundedCounter (counter, other) x = (counter, other + 1) := by
        unfold updateBoundedCounter
        simp [hx, hlt]
      rw [hstep, hupdate]
      rw [ih counter (other + 1) (List.Nodup.of_cons hnodup)
        (fun v hv => hdisj v (List.mem_cons_of_mem _ hv)) hlen]
      have hc : TOP_VALUE_TRACK_CAP - counter.length = 0 := by omega
      rw [hc]
      simp only [List.take_zero, List.map_nil, List.append_nil, List.length_cons, Nat.sub_zero]
      congr 1
      omega

/-- The counter state of the 5001-fresh-value column: the first 5000
values with count 1 each, and overflow exactly 1. -/
theorem c4_counter_state :
    counterStateOf c4Cells = ((c4Cells.take 5000).map (fun v => (v, 1)), 1) := by
  unfold counterStateOf
  rw [counterFold_fresh c4Cells [] 0 c4Cells_nodup (fun v _ => rfl) (Nat.zero_le _)]
  have hlen : c4Cells.length = 5001 := by
    unfold c4Cells
    rw [List.length_map, List.length_range]
  rw [hlen]
  rw [show TOP_VALUE_TRACK_CAP - List.length ([] : List (String × ℕ)) = 5000 from rfl]
  rw [List.nil_append]

/-- A counter whose counts are all one is sorted descending by count. -/
theorem pairwise_count_one (l : List String) :
    ((l.map (fun v => (v, 1))).Pairwise countDescRel) := by
  induction l with
  | nil => simp
  | cons x xs ih =>
    rw [List.map_cons, List.pairwise_cons]
    refine ⟨?_, ih⟩
    intro b hb
    obtain ⟨v, _, rfl⟩ := List.mem_map.mp hb
    exact le_refl 1

set_option maxRecDepth 100000 in
/-- Top pairs of the 5001-value column: the first five fresh values,
with the `__OTHER__` entry sorted after them (stable tie) and cut away
by the final take-5. -/
theorem c4_top_pairs : topPairsOf c4Cells = (c4Cells.take 5).map (fun v => (v, 1)) := by
  unfold topPairsOf mostCommon5
  rw [c4_counter_state]
  rw [show ((((c4Cells.take 5000).map (fun v => (v, 1)) : List (String × ℕ)), (1 : ℕ)).2 = 1)
    from rfl]
  rw [show ((((c4Cells.take 5000).map (fun v => (v, 1)) : List (String × ℕ)), (1 : ℕ)).1 =
    (c4Cells.take 5000).map (fun v => (v, 1))) from rfl]
  rw [if_pos (by norm_num : (0 : ℕ) < 1)]
  have hsorted1 : (((c4Cells.take 5000).map (fun v => (v, 1))).insertionSort countDescRel) =
      (c4Cells.take 5000).map (fun v => (v, 1)) :=
    List.Sorted.insertionSort_eq (pairwise_count_one _)
  rw [hsorted1]
  have htake5 : ((c4Cells.take 5000).map (fun v => (v, 1))).take 5 =
      (c4Cells.take 5).map (fun v => (v, 1)) := by
    rw [← List.map_take, List.take_take]
    norm_num
  rw [htake5]
  have hmapapp : (c4Cells.take 5).map (fun v => (v, 1)) ++ [("__OTHER__", 1)] =
      ((c4Cells.take 5) ++ ["__OTHER__"]).map (fun v => (v, 1)) := by
    rw [List.map_append]
    rfl
  rw [hmapapp]
  rw [List.Sorted.insertionSort_eq (pairwise_count_one _)]
  rw [← hmapapp]
  have hlen5 : ((c4Cells.take 5).map (fun v : String => (v, 1))).length = 5 := by
    rw [List.length_map, List.length_take]
    have : c4Cells.length = 5001 := by
      unfold c4Cells
      rw [List.length_map, List.length_range]
    omega
  exact List.take_left' hlen5

/-- No fresh value is the synthetic `__OTHER__` marker. -/
theorem natName_ne_other (i : ℕ) : natName i ≠ "__OTHER__" := by
  intro h
  have := congrArg String.data h
  simp [natName] at this

/-- The C4 column stream is exactly the fresh cell list. -/
theorem c4_columnCells : columnCells c4Rows "c" = c4Cells := by
  unfold c4Rows
  exact columnCells_single c4Cells "c"

/-- Distinct-value count of the C4 column. -/
theorem c4_distinct_count : distinctValuesCount (columnCells c4Rows "c") = 5001 := by
  rw [c4_columnCells]
  unfold distinctValuesCount
  rw [strippedValues_c4, List.dedup_eq_self.mpr c4Cells_nodup]
  unfold c4Cells
  rw [List.length_map, List.length_range]

/-- C4 counterexample: a column with 5001 distinct values each seen
once has `top_values_capped = true`, but the overflow count 1 ties with
the five tracked counts, is stably sorted after them, and is cut away:
no `__OTHER__` entry appears in `top_values`. -/
theorem top_values_capped_other_dropped :
    5000 < distinctValuesCount (columnCells c4Rows "c") ∧
    topValuesCappedOf (columnCells c4Rows "c") = true ∧
    "__OTHER__" ∉ (topValuesOf (columnCells c4Rows "c")).map TopValue.value := by
  refine ⟨?_, ?_, ?_⟩
  · rw [c4_distinct_count]
    norm_num
  · rw [c4_columnCells]
    unfold topValuesCappedOf
    rw [strippedValues_c4, c4_counter_state]
    rfl
  · rw [c4_columnCells]
    unfold topValuesOf
    rw [strippedValues_c4, c4_top_pairs]
    rw [List.map_map, List.map_map]
    intro hmem
    obtain ⟨v, hv, hval⟩ := List.mem_map.mp hmem
    have hv2 : v ∈ c4Cells := List.take_subset 5 c4Cells hv
    obtain ⟨i, _, rfl⟩ := List.mem_map.mp hv2
    exact natName_ne_other i hval

/-- Closed instantiation of the amended C4 theorem at the 5001-value
column. -/
theorem top_values_capped_of_many_distinct_witness :
    topValuesCappedOf (columnCells c4Rows "c") = true :=
  top_values_capped_of_many_distinct c4Rows "c" (by rw [c4_distinct_count]; norm_num)

/-- The Python round of a real is at most one more than it. -/
theorem pyRoundR_le (x : ℝ) : (pyRoundR x : ℝ) ≤ x + 1 := by
  unfold pyRoundR
  have hfl := Int.floor_le x
  split_ifs <;> push_cast <;> linarith

/-- A real strictly above a half-integer rounds up past it. -/
theorem pyRoundR_ge_succ (k : ℤ) (x : ℝ) (h : (k : ℝ) + 1 / 2 < x) :
    k + 1 ≤ pyRoundR x := by
  unfold pyRoundR
  by_cases hk : k + 1 ≤ ⌊x⌋
  · split_ifs <;> omega
  · have hlo : k ≤ ⌊x⌋ := Int.le_floor.mpr (by linarith)
    have h1 : ⌊x⌋ = k := by omega
    have h2 : ¬ (x - (⌊x⌋ : ℝ) < 1 / 2) := by
      rw [h1]
      linarith
    have h3 : (1 : ℝ) / 2 < x - (⌊x⌋ : ℝ) := by
      rw [h1]
      linarith
    rw [if_neg h2, if_pos h3]
    omega

/-- The linear-counting overshoot at 256 set bits: the estimate's
argument exceeds 256.5, one rounding step above the true count. -/
theorem log_overshoot_256 : (256.5 : ℝ) < -(65536 : ℝ) * Real.log (65280 / 65536) := by
  have hx : (65280 : ℝ) / 65536 = 1 - 1 / 256 := by norm_num
  rw [hx]
  have habs : |(1 : ℝ) / 256| = 1 / 256 := abs_of_pos (by norm_num)
  have h := Real.abs_log_sub_add_sum_range_le (x := (1 : ℝ) / 256) (by rw [habs]; norm_num) 3
  rw [habs] at h
  have hsum : (∑ i ∈ Finset.range 3, ((1 : ℝ) / 256) ^ (i + 1) / (i + 1)) =
      1 / 256 + (1 / 256) ^ 2 / 2 + (1 / 256) ^ 3 / 3 := by
    rw [Finset.sum_range_succ, Finset.sum_range_succ, Finset.sum_range_one]
    norm_num
  rw [hsum] at h
  have h2 := (abs_le.mp h).2
  have h3 : Real.log (1 - 1 / 256) ≤
      ((1 : ℝ) / 256) ^ 4 / (1 - 1 / 256) - (1 / 256 + (1 / 256) ^ 2 / 2 + (1 / 256) ^ 3 / 3) := by
    linarith
  nlinarith [h3]

/-- The estimate never exceeds round(B * log B) + 1 bounded by 726818
(the source has no upper clamp below `set_bits >= B`). -/
theorem estimateUniqueCount_le (s : ℕ) : estimateUniqueCount s ≤ 726818 := by
  unfold estimateUniqueCount
  split_ifs with h1 h2
  · omega
  · norm_num [UNIQUE_BITMAP_SIZE]
  · have hs : s < 65536 := by
      have : ¬ (65536 ≤ s) := h2
      omega
    have hz1 : (1 : ℝ) ≤ ((UNIQUE_BITMAP_SIZE - s : ℕ) : ℝ) := by
      have : 1 ≤ UNIQUE_BITMAP_SIZE - s := by
        unfold UNIQUE_BITMAP_SIZE
        omega
      exact_mod_cast this
    have hzB : ((UNIQUE_BITMAP_SIZE - s : ℕ) : ℝ) / (UNIQUE_BITMAP_SIZE : ℝ) =
        ((UNIQUE_BITMAP_SIZE - s : ℕ) : ℝ) / 65536 := by
      norm_num [UNIQUE_BITMAP_SIZE]
    have hlog : Real.log (((UNIQUE_BITMAP_SIZE - s : ℕ) : ℝ) / (UNIQUE_BITMAP_SIZE : ℝ)) ≥
        -Real.log 65536 := by
      rw [hzB]
      rw [Real.log_div (by linarith) (by norm_num)]
      have := Real.log_nonneg hz1
      linarith
    have hlog2 : Real.log (65536 : ℝ) < 16 * 0.6931471808 := by
      have h216 : (65536 : ℝ) = 2 ^ 16 := by norm_num
      rw [h216, Real.log_pow]
      have := Real.log_two_lt_d9
      push_cast
      nlinarith
    have hval : -(UNIQUE_BITMAP_SIZE : ℝ) *
        Real.log (((UNIQUE_BITMAP_SIZE - s : ℕ) : ℝ) / (UNIQUE_BITMAP_SIZE : ℝ)) ≤
        65536 * Real.log 65536 := by
      have hB : ((UNIQUE_BITMAP_SIZE : ℕ) : ℝ) = 65536 := by norm_num [UNIQUE_BITMAP_SIZE]
      rw [hB] at hlog ⊢
      linarith [hlog]
    have hr := pyRoundR_le (-(UNIQUE_BITMAP_SIZE : ℝ) *
      Real.log (((UNIQUE_BITMAP_SIZE - s : ℕ) : ℝ) / (UNIQUE_BITMAP_SIZE : ℝ)))
    have hrle : (pyRoundR (-(UNIQUE_BITMAP_SIZE : ℝ) *
        Real.log (((UNIQUE_BITMAP_SIZE - s : ℕ) : ℝ) / (UNIQUE_BITMAP_SIZE : ℝ))) : ℝ) <
        726819 := by
      nlinarith [hlog2, hval, hr]
    have hrint : pyRoundR (-(UNIQUE_BITMAP_SIZE : ℝ) *
        Real.log (((UNIQUE_BITMAP_SIZE - s : ℕ) : ℝ) / (UNIQUE_BITMAP_SIZE : ℝ))) ≤ 726818 := by
      by_contra hcon
      push_neg at hcon
      have h4 : (726819 : ℤ) ≤ pyRoundR (-(UNIQUE_BITMAP_SIZE : ℝ) *
          Real.log (((UNIQUE_BITMAP_SIZE - s : ℕ) : ℝ) / (UNIQUE_BITMAP_SIZE : ℝ))) := by omega
      have h5 : (726819 : ℝ) ≤ (pyRoundR (-(UNIQUE_BITMAP_SIZE : ℝ) *
          Real.log (((UNIQUE_BITMAP_SIZE - s : ℕ) : ℝ) / (UNIQUE_BITMAP_SIZE : ℝ))) : ℝ) := by
        exact_mod_cast h4
      linarith
    rw [Int.toNat_le]
    omega

/-- C1 (amended): the stored `unique_count` of every profiled column is
at most 726818 (about B*ln B + 1); it is not in general bounded by
min(bitmap capacity, non-missing count) - see the counterexample. -/
theorem unique_count_global_bound (rows : List CsvRow) (col : String) :
    uniqueCountOf (strippedValues (columnCells rows col)) ≤ 726818 :=
  estimateUniqueCount_le _

/-- Bitmap folds compose over appended value lists. -/
theorem bmFold_append (l1 l2 : List String) (bm : List ℕ) :
    bmFold (l1 ++ l2) bm = bmFold l2 (bmFold l1 bm) := by
  unfold bmFold
  exact List.foldl_append _ _ _ _

set_option maxRecDepth 100000 in
/-- Chunk 0 of the bitmap evaluation. -/
theorem c1_bm_step0 : bmFold c1Chunk0 ([] : List ℕ) = c1Bm0 := by decide

set_option maxRecDepth 100000 in
/-- Chunk 1 of the bitmap evaluation. -/
theorem c1_bm_step1 : bmFold c1Chunk1 c1Bm0 = c1Bm1 := by decide

set_option maxRecDepth 100000 in
/-- Chunk 2 of the bitmap evaluation. -/
theorem c1_bm_step2 : bmFold c1Chunk2 c1Bm1 = c1Bm2 := by decide

set_option maxRecDepth 100000 in
/-- Chunk 3 of the bitmap evaluation. -/
theorem c1_bm_step3 : bmFold c1Chunk3 c1Bm2 = c1Bm3 := by decide

set_option maxRecDepth 100000 in
/-- Chunk 4 of the bitmap evaluation. -/
theorem c1_bm_step4 : bmFold c1Chunk4 c1Bm3 = c1Bm4 := by decide

set_option maxRecDepth 100000 in
/-- Chunk 5 of the bitmap evaluation. -/
theorem c1_bm_step5 : bmFold c1Chunk5 c1Bm4 = c1Bm5 := by decide

set_option maxRecDepth 100000 in
/-- Chunk 6 of the bitmap evaluation. -/
theorem c1_bm_step6 : bmFold c1Chunk6 c1Bm5 = c1Bm6 := by decide

set_option maxRecDepth 100000 in
/-- Chunk 7 of the bitmap evaluation. -/
theorem c1_bm_step7 : bmFold c1Chunk7 c1Bm6 = c1Bm7 := by decide

set_option maxRecDepth 100000 in
/-- The full bitmap of the counterexample cells. -/
theorem c1_bitmap : bitmapOf c1Cells = c1Bm7 := by
  unfold bitmapOf c1Cells
  rw [bmFold_append, bmFold_append, bmFold_append, bmFold_append, bmFold_append,
    bmFold_append, bmFold_append]
  rw [c1_bm_step0, c1_bm_step1, c1_bm_step2, c1_bm_step3, c1_bm_step4, c1_bm_step5,
    c1_bm_step6, c1_bm_step7]

set_option maxRecDepth 100000 in
/-- The counterexample sets exactly 256 bits. -/
theorem c1_setBits : setBitsOf c1Cells = 256 := by
  unfold setBitsOf
  rw [c1_bitmap]
  rfl

set_option maxRecDepth 100000 in
/-- Stripping leaves the probe values unchanged. -/
theorem strippedValues_c1 : strippedValues c1Cells = c1Cells := by decide

/-- The counterexample column's cells. -/
theorem c1_columnCells : columnCells c1Rows "col" = c1Cells := by
  unfold c1Rows
  exact columnCells_single c1Cells "col"

set_option maxRecDepth 100000 in
/-- All 256 probe cells are non-missing. -/
theorem c1_nonMissing : nonMissingCount (columnCells c1Rows "col") = 256 := by
  rw [c1_columnCells]
  decide

/-- Linear counting overshoots at 256 set bits: the estimate is at
least 257. -/
theorem estimateUniqueCount_256 : 256 < estimateUniqueCount 256 := by
  unfold estimateUniqueCount
  rw [if_neg (by norm_num), if_neg (by norm_num [UNIQUE_BITMAP_SIZE])]
  have hval : ((UNIQUE_BITMAP_SIZE - 256 : ℕ) : ℝ) = 65280 := by norm_num [UNIQUE_BITMAP_SIZE]
  have hB : ((UNIQUE_BITMAP_SIZE : ℕ) : ℝ) = 65536 := by norm_num [UNIQUE_BITMAP_SIZE]
  rw [hval, hB]
  have h1 : (256 : ℝ) + 1 / 2 < -(65536 : ℝ) * Real.log (65280 / 65536) := by
    have h := log_overshoot_256
    have e : (256.5 : ℝ) = 256 + 1 / 2 := by norm_num
    linarith
  have h2 : (257 : ℤ) ≤ pyRoundR (-(65536 : ℝ) * Real.log (65280 / 65536)) :=
    pyRoundR_ge_succ 256 _ h1
  have h3 : (257 : ℤ) ≤ max 1 (pyRoundR (-(65536 : ℝ) * Real.log (65280 / 65536))) :=
    le_trans h2 (le_max_right _ _)
  omega

/-- C1 (counterexample): a column of 256 distinct values with pairwise
distinct bitmap indices is estimated at 257, so the stored unique_count
exceeds min(bitmap_capacity, non_missing_count) = 256. -/
theorem unique_count_exceeds_min_bound :
    min UNIQUE_BITMAP_SIZE (nonMissingCount (columnCells c1Rows "col")) <
      uniqueCountOf (strippedValues (columnCells c1Rows "col")) := by
  rw [c1_nonMissing, c1_columnCells, strippedValues_c1]
  unfold uniqueCountOf
  rw [c1_setBits]
  have h := estimateUniqueCount_256
  have hmin : min UNIQUE_BITMAP_SIZE 256 = 256 := by norm_num [UNIQUE_BITMAP_SIZE]
  omega
